import Mathlib

/-!
Verification of `gemini-live-with-ephemeral-tokens` against its specification.

The development shallowly embeds the parts of the TypeScript sources that the
claims are about:

* `EphemeralTokenManager` (token lifecycle: create / refresh / consume /
  revoke / cleanup) from the token-manager module;
* `SecurityMiddleware` (`validateRequest`, `checkRateLimit`, `secureEndpoint`)
  from `src/lib/auth/security-middleware.ts`;
* `EnhancedGenAILiveClient` (connect / disconnect / reconnection scheduling /
  token-request deduplication / refresh scheduling) from the enhanced live
  client module.

Time is modelled as milliseconds since the epoch (`Int`), JS `Map`s as
association lists over `String` keys, JS `Set`s as duplicate-free lists, and
the JS event loop as explicit small steps: every synchronous code segment is
one atomic state transition, and `setTimeout` callbacks are recorded as armed
timers that a separate step fires.
-/

/-! ## JS helpers: 32-bit string hash, base-36 rendering, substring test -/

/-- Coerce an integer to a 32-bit two's-complement value, as JS `x & x` /
`x << n` do (`ToInt32`). -/
def to32 (n : Int) : Int :=
  (n + 2 ^ 31) % 2 ^ 32 - 2 ^ 31

/-- One step of the JS string hash `hash = ((hash << 5) - hash) + char`
followed by `hash = hash & hash`.  The shift returns an int32, the mixed
arithmetic is exact, and the final `&` truncates to int32. -/
def jsHashStep (h : Int) (c : Nat) : Int :=
  to32 (to32 (h * 32) - h + c)

/-- JS string hash used by `generateTokenId` (token manager) and
`simpleHash` (security middleware): fold `jsHashStep` over the UTF-16 char
codes, starting from 0.  All characters used in this development are in the
BMP, where `Char.toNat` agrees with `charCodeAt`. -/
def jsHash (s : String) : Int :=
  s.toList.foldl (fun h c => jsHashStep h c.toNat) 0

/-- Digit character for base-36 rendering: `0`-`9` then `a`-`z`,
as JS `Number.prototype.toString(36)`. -/
def digitChar36 (n : Nat) : Char :=
  if n < 10 then Char.ofNat (48 + n) else Char.ofNat (87 + n)

/-- Base-36 digits of `n` (most significant first), with explicit fuel. -/
def base36Digits : Nat → Nat → List Char
  | 0, _ => []
  | fuel + 1, n =>
    if n < 36 then [digitChar36 n]
    else base36Digits fuel (n / 36) ++ [digitChar36 (n % 36)]

/-- JS `Math.abs(hash).toString(36)`. -/
def toString36 (n : Nat) : String :=
  String.mk (base36Digits (n + 1) n)

/-- `Math.abs(jsHash s).toString(36)` — shared by the token manager's
`generateTokenId` and the middleware's `simpleHash`. -/
def jsStringHash36 (s : String) : String :=
  toString36 (jsHash s).natAbs

/-- `t` is a leading segment of `s` (JS `String.prototype.startsWith`). -/
def leadSeg (t : List Char) : List Char → Bool
  | [] => t.isEmpty
  | c :: r =>
    match t with
    | [] => true
    | a :: t' => a == c && leadSeg t' r

/-- `t` occurs as a contiguous segment of `s`
(JS `String.prototype.includes`). -/
def hasSegment (t : List Char) : List Char → Bool
  | [] => t.isEmpty
  | c :: r => leadSeg t (c :: r) || hasSegment t r

/-- JS `s.includes(sub)`. -/
def jsIncludes (s sub : String) : Bool :=
  hasSegment sub.toList s.toList

/-- JS `s.startsWith(t)`. -/
def jsStarts (s t : String) : Bool :=
  leadSeg t.toList s.toList

/-- JS `Math.ceil(x / 1000)` for integral `x` (floor division of `x + 999`;
`Int` division by a positive constant is floor division). -/
def jsCeilDiv1000 (x : Int) : Int :=
  (x + 999) / 1000

/-- JS `parseInt` restricted to what the middleware feeds it: optional sign
followed by decimal digits; `none` models `NaN`. -/
def jsParseInt (s : String) : Option Int :=
  let p : Int × List Char :=
    match s.toList with
    | '-' :: r => (-1, r)
    | '+' :: r => (1, r)
    | l => (1, l)
  let ds := p.2.takeWhile Char.isDigit
  if ds.isEmpty then none
  else some (p.1 * ds.foldl (fun a c => a * 10 + ((c.toNat : Int) - 48)) 0)

/-! ## JS `Map` as an association list -/

/-- JS `Map.prototype.get`. -/
def mapGet {β : Type} (l : List (String × β)) (k : String) : Option β :=
  match l with
  | [] => none
  | (k', v) :: t => if k' = k then some v else mapGet t k

/-- JS `Map.prototype.set`: replace in place, or append a fresh binding. -/
def mapSet {β : Type} (l : List (String × β)) (k : String) (v : β) :
    List (String × β) :=
  match l with
  | [] => [(k, v)]
  | (k', v') :: t => if k' = k then (k', v) :: t else (k', v') :: mapSet t k v

/-- JS `Map.prototype.delete` (for duplicate-free keys). -/
def mapDel {β : Type} (l : List (String × β)) (k : String) :
    List (String × β) :=
  l.filter (fun p => p.1 ≠ k)

/-- The keys of an association list, in insertion order. -/
def mapKeys {β : Type} : List (String × β) → List String
  | [] => []
  | (k, _) :: t => k :: mapKeys t

theorem mapGet_set_self {β : Type} (l : List (String × β)) (k : String)
    (v : β) : mapGet (mapSet l k v) k = some v := by
  induction l with
  | nil => simp [mapSet, mapGet]
  | cons p t ih =>
    rcases p with ⟨a, b⟩
    by_cases h : a = k
    · simp [mapSet, mapGet, h]
    · simp [mapSet, mapGet, h, ih]

theorem mapGet_set_ne {β : Type} (l : List (String × β)) (k k' : String)
    (v : β) (h : k' ≠ k) : mapGet (mapSet l k v) k' = mapGet l k' := by
  induction l with
  | nil =>
    simp only [mapSet, mapGet]
    rw [if_neg (fun hk => h hk.symm)]
  | cons p t ih =>
    rcases p with ⟨a, b⟩
    by_cases hak : a = k
    · subst hak
      have hk' : ¬a = k' := fun hh => h hh.symm
      simp [mapSet, mapGet, hk']
    · by_cases hak' : a = k'
      · subst hak'
        simp [mapSet, hak, mapGet]
      · simp [mapSet, hak, mapGet, hak', ih]

theorem mapGet_eq_none_iff {β : Type} (l : List (String × β)) (k : String) :
    mapGet l k = none ↔ k ∉ mapKeys l := by
  induction l with
  | nil => simp [mapGet, mapKeys]
  | cons p t ih =>
    rcases p with ⟨a, b⟩
    by_cases h : a = k
    · subst h
      simp [mapGet, mapKeys]
    · simp only [mapGet, if_neg h, mapKeys, List.mem_cons, not_or, ih]
      constructor
      · exact fun hk => ⟨fun he => h he.symm, hk⟩
      · exact fun hk => hk.2

theorem mapKeys_set_of_mem {β : Type} (l : List (String × β)) (k : String)
    (v : β) (h : k ∈ mapKeys l) : mapKeys (mapSet l k v) = mapKeys l := by
  induction l with
  | nil => simp [mapKeys] at h
  | cons p t ih =>
    rcases p with ⟨a, b⟩
    by_cases hak : a = k
    · simp [mapSet, hak, mapKeys]
    · have h' : k ∈ mapKeys t := by
        rcases (List.mem_cons.mp h) with h1 | h1
        · exact absurd h1.symm hak
        · exact h1
      simp [mapSet, hak, mapKeys, ih h']

theorem mapKeys_set_of_fresh {β : Type} (l : List (String × β)) (k : String)
    (v : β) (h : k ∉ mapKeys l) : mapKeys (mapSet l k v) = mapKeys l ++ [k] := by
  induction l with
  | nil => simp [mapSet, mapKeys]
  | cons p t ih =>
    rcases p with ⟨a, b⟩
    rw [mapKeys, List.mem_cons, not_or] at h
    have ha : ¬a = k := fun he => h.1 he.symm
    simp [mapSet, ha, mapKeys, ih h.2]

theorem mapGet_mem_keys {β : Type} (l : List (String × β)) (k : String)
    (v : β) (h : mapGet l k = some v) : k ∈ mapKeys l := by
  by_contra hk
  have h0 := (mapGet_eq_none_iff l k).mpr hk
  rw [h0] at h
  cases h

theorem mapGet_filter_none {β : Type} (l : List (String × β))
    (q : String × β → Bool) (k : String) (h : mapGet l k = none) :
    mapGet (l.filter q) k = none := by
  induction l with
  | nil => simp [mapGet]
  | cons p t ih =>
    rcases p with ⟨a, b⟩
    by_cases hak : a = k
    · simp [mapGet, hak] at h
    · simp only [mapGet, if_neg hak] at h
      rcases hq : q (a, b) with _ | _
      · simp [List.filter_cons, hq, ih h]
      · simp [List.filter_cons, hq, mapGet, hak, ih h]

/-- `mapGet` through a filter, for duplicate-free keys: the binding survives
iff the predicate keeps it. -/
theorem mapGet_filter {β : Type} (l : List (String × β)) (q : String × β → Bool)
    (k : String) (v : β) (hnd : (mapKeys l).Nodup) (h : mapGet l k = some v) :
    mapGet (l.filter q) k = (if q (k, v) then some v else none) := by
  induction l with
  | nil => simp [mapGet] at h
  | cons p t ih =>
    rcases p with ⟨a, b⟩
    rw [mapKeys, List.nodup_cons] at hnd
    by_cases hak : a = k
    · subst hak
      simp only [mapGet, if_pos rfl] at h
      injection h with h
      subst h
      have hget : mapGet (t.filter q) a = none :=
        mapGet_filter_none t q a ((mapGet_eq_none_iff t a).mpr hnd.1)
      rcases hq : q (a, b) with _ | _
      · simp [List.filter_cons, hq, hget]
      · simp [List.filter_cons, hq, mapGet, hget]
    · simp only [mapGet, if_neg hak] at h
      rcases hq : q (a, b) with _ | _
      · simp [List.filter_cons, hq, ih hnd.2 h]
      · simp [List.filter_cons, hq, mapGet, hak, ih hnd.2 h]

/-! ## Counting helpers (own small kit, by induction) -/

theorem countP_le_of_imp {α : Type} (p q : α → Bool) (l : List α)
    (h : ∀ a ∈ l, p a = true → q a = true) :
    l.countP p ≤ l.countP q := by
  induction l with
  | nil => simp
  | cons a t ih =>
    have ht := ih (fun x hx => h x (List.mem_cons_of_mem a hx))
    rcases hp : p a with _ | _
    · rcases hq : q a with _ | _ <;>
        simp [List.countP_cons, hp, hq] <;> omega
    · have := h a (List.mem_cons_self a t) hp
      simp [List.countP_cons, hp, this]
      omega

theorem countP_eq_of_eq_on {α : Type} (p q : α → Bool) (l : List α)
    (h : ∀ a ∈ l, p a = q a) : l.countP p = l.countP q := by
  induction l with
  | nil => simp
  | cons a t ih =>
    have ht := ih (fun x hx => h x (List.mem_cons_of_mem a hx))
    simp [List.countP_cons, ht, h a (List.mem_cons_self a t)]

theorem countP_le_of_sublist {α : Type} (p : α → Bool) {l₁ l₂ : List α}
    (h : List.Sublist l₁ l₂) : l₁.countP p ≤ l₂.countP p := by
  induction h with
  | slnil => simp
  | cons a h ih => simp [List.countP_cons]; omega
  | cons₂ a h ih => simp [List.countP_cons]; omega

/-! ## `EphemeralTokenManager` (token lifecycle)

Embeds the token-manager class: `createToken`, `refreshToken`,
`validateAndUseToken`, `revokeSession`, `cleanup`, plus the private helpers
`validateTokenParams`, `enforceSessionTokenLimit`, `generateTokenId`,
`addTokenToSession`, `removeTokenFromSession`.  The network call to
`genai.authTokens.create` is an environment input: the token string the
Google SDK returns is a parameter of `createToken`, and the current time
(`Date.now()` / `new Date()`) is an explicit `now : Int` parameter. -/

structure EphToken where
  tokenStr : String
  expiresAt : Int
  usesRemaining : Int
  sessionId : String
  createdAt : Int
  lastUsed : Option Int
deriving DecidableEq

structure TokenEntry where
  token : EphToken
  refreshCount : Nat
  issuedFor : String
deriving DecidableEq

structure TokenManager where
  tokenStorage : List (String × TokenEntry)
  sessionTokens : List (String × List String)
  maxTokensPerSession : Nat
  defaultExpirationMinutes : Int
  defaultUses : Int
deriving DecidableEq

/-- `generateTokenId`: `token_` + base-36 of `|jsHash tokenString|`. -/
def generateTokenId (tokenString : String) : String :=
  "token_" ++ jsStringHash36 tokenString

/-- A stored credential counts as valid/active:
`token.expiresAt > new Date() && token.usesRemaining > 0`. -/
def isActive (now : Int) (e : TokenEntry) : Bool :=
  now < e.token.expiresAt && 0 < e.token.usesRemaining

/-- The token-id set tracked for a session (`sessionTokens.get(sessionId)`,
empty when absent). -/
def sessionTokenIds (m : TokenManager) (sid : String) : List String :=
  (mapGet m.sessionTokens sid).getD []

/-- Whether the id resolves to a currently valid entry — the body of
`enforceSessionTokenLimit`'s filter (`entry && active`). -/
def idActive (storage : List (String × TokenEntry)) (now : Int)
    (id : String) : Bool :=
  match mapGet storage id with
  | some e => isActive now e
  | none => false

/-- `enforceSessionTokenLimit`'s count:
`Array.from(ids).map(get).filter(entry && valid).length`. -/
def activeTokenCount (m : TokenManager) (now : Int) (sid : String) : Nat :=
  (sessionTokenIds m sid).countP (idActive m.tokenStorage now)

/-- `addTokenToSession`: ensure the session's id set exists, then `Set.add`
(append iff absent). -/
def addTokenToSession (m : TokenManager) (sid tokenId : String) :
    TokenManager :=
  let cur := (mapGet m.sessionTokens sid).getD []
  let cur' := if tokenId ∈ cur then cur else cur ++ [tokenId]
  { m with sessionTokens := mapSet m.sessionTokens sid cur' }

/-- `removeTokenFromSession`: `Set.delete`, then drop the session key when
its set becomes empty. -/
def removeTokenFromSession (ss : List (String × List String))
    (sid tokenId : String) : List (String × List String) :=
  match mapGet ss sid with
  | some l =>
    let l' := l.erase tokenId
    if l' = [] then mapDel ss sid else mapSet ss sid l'
  | none => ss

/-- `createToken` (with `uses`/`expirationMinutes`/`sessionId` already
defaulted by the caller, and the SDK's token name passed in):
validate parameters, enforce the per-session limit, then store the new
credential and register it under the session. -/
def createToken (m : TokenManager) (now : Int) (tokenStr : String)
    (uses expirationMinutes : Int) (sid clientId : String) :
    Except String (EphToken × TokenManager) :=
  if ¬(1 ≤ uses ∧ uses ≤ 5) then
    Except.error "Uses must be between 1 and 5"
  else if ¬(1 ≤ expirationMinutes ∧ expirationMinutes ≤ 30) then
    Except.error "Expiration must be between 1 and 30 minutes"
  else if m.maxTokensPerSession ≤ activeTokenCount m now sid then
    Except.error ("Session has reached maximum token limit (" ++
      toString m.maxTokensPerSession ++ ")")
  else
    let expiration := now + expirationMinutes * 60 * 1000
    let token : EphToken :=
      { tokenStr := tokenStr, expiresAt := expiration, usesRemaining := uses,
        sessionId := sid, createdAt := now, lastUsed := none }
    let tokenId := generateTokenId tokenStr
    let entry : TokenEntry := { token := token, refreshCount := 0,
                                issuedFor := clientId }
    let m1 := { m with tokenStorage := mapSet m.tokenStorage tokenId entry }
    Except.ok (token, addTokenToSession m1 sid tokenId)

/-- The zeroing loop shared by `refreshToken` and `revokeSession`: for each
id of the session found in storage, set `usesRemaining = 0` and stamp
`lastUsed = new Date()`. -/
def zeroSessionTokens (storage : List (String × TokenEntry)) (now : Int) :
    List String → List (String × TokenEntry)
  | [] => storage
  | id :: rest =>
    let storage' :=
      match mapGet storage id with
      | some e =>
        let tok' := { e.token with usesRemaining := 0, lastUsed := some now }
        mapSet storage id { e with token := tok' }
      | none => storage
    zeroSessionTokens storage' now rest

/-- Replace only the token storage of a manager (mutating
`this.tokenStorage` in place). -/
def withStorage (m : TokenManager) (storage : List (String × TokenEntry)) :
    TokenManager :=
  { m with tokenStorage := storage }

/-- `refreshToken`: exhaust the session's current tokens, create a new one,
then mark its `refreshCount = 1`.  When `createToken` throws, the zeroing
mutation has already happened. -/
def refreshToken (m : TokenManager) (now : Int) (tokenStr : String)
    (uses expirationMinutes : Int) (sid clientId : String) :
    Except String EphToken × TokenManager :=
  let m1 := withStorage m
    (zeroSessionTokens m.tokenStorage now (sessionTokenIds m sid))
  match createToken m1 now tokenStr uses expirationMinutes sid clientId with
  | Except.error e => (Except.error e, m1)
  | Except.ok (tok, m2) =>
    let m3 :=
      match mapGet m2.tokenStorage (generateTokenId tok.tokenStr) with
      | some entry =>
        withStorage m2 (mapSet m2.tokenStorage (generateTokenId tok.tokenStr)
          { entry with refreshCount := 1 })
      | none => m2
    (Except.ok tok, m3)

structure ValidateResult where
  valid : Bool
  token : Option EphToken
  reason : Option String
deriving DecidableEq

/-- `validateAndUseToken`: look up by derived id; reject when missing,
expired (`expiresAt < new Date()`), or exhausted (`usesRemaining <= 0`);
otherwise decrement usage and stamp `lastUsed`. -/
def validateAndUseToken (m : TokenManager) (tokenStr : String) (now : Int) :
    ValidateResult × TokenManager :=
  let tokenId := generateTokenId tokenStr
  match mapGet m.tokenStorage tokenId with
  | none => ({ valid := false, token := none, reason := some "Token not found" }, m)
  | some entry =>
    if entry.token.expiresAt < now then
      ({ valid := false, token := none, reason := some "Token expired" }, m)
    else if entry.token.usesRemaining ≤ 0 then
      ({ valid := false, token := none, reason := some "Token usage exhausted" }, m)
    else
      let tok' := { entry.token with
                    usesRemaining := entry.token.usesRemaining - 1,
                    lastUsed := some now }
      ({ valid := true, token := some tok', reason := none },
       { m with tokenStorage :=
           mapSet m.tokenStorage tokenId { entry with token := tok' } })

/-- `revokeSession`: zero out every stored token of the session, counting
the entries found. -/
def revokeSession (m : TokenManager) (sid : String) (now : Int) :
    Nat × TokenManager :=
  let ids := sessionTokenIds m sid
  let revoked := ids.countP (fun id => (mapGet m.tokenStorage id).isSome)
  (revoked, { m with tokenStorage := zeroSessionTokens m.tokenStorage now ids })

/-- `cleanup`'s removal test: `(expired || exhausted) && timeSinceLastUse >
5 * 60 * 1000`, where idle time falls back to the creation time when the
token was never used. -/
def shouldCleanup (now : Int) (e : TokenEntry) : Bool :=
  let expired := e.token.expiresAt < now
  let exhausted := e.token.usesRemaining ≤ 0
  let timeSinceLastUse :=
    match e.token.lastUsed with
    | some t => now - t
    | none => now - e.token.createdAt
  (expired || exhausted) && 5 * 60 * 1000 < timeSinceLastUse

/-- `cleanup`: delete every entry passing `shouldCleanup` and unregister it
from its own session's id set; returns `(cleaned, remaining)` counts with
the updated manager. -/
def cleanup (m : TokenManager) (now : Int) :
    TokenManager × Nat × Nat :=
  let doomed := m.tokenStorage.filter (fun p => shouldCleanup now p.2)
  let storage' := m.tokenStorage.filter (fun p => !shouldCleanup now p.2)
  let sessions' := doomed.foldl
    (fun ss p => removeTokenFromSession ss p.2.token.sessionId p.1)
    m.sessionTokens
  ({ m with tokenStorage := storage', sessionTokens := sessions' },
   doomed.length, storage'.length)

/-! ## `SecurityMiddleware` (`src/lib/auth/security-middleware.ts`)

`NextRequest` is embedded as the headers / fields the middleware reads;
`process.env.NODE_ENV` is the `env : String` parameter; the route handler's
outcome is a parameter of `secureEndpoint`. -/

structure RateLimitEntry where
  count : Int
  windowStart : Int
  blocked : Bool
  lastReset : Int
deriving DecidableEq

structure RateLimitResult where
  allowed : Bool
  remaining : Int
  resetTime : Int
  retryAfter : Int
deriving DecidableEq

/-- `checkRateLimit`: fresh entry, expired-window reset, over-limit block,
or plain increment. -/
def checkRateLimit (store : List (String × RateLimitEntry))
    (windowMs maxRequests : Int) (clientId : String) (now : Int) :
    RateLimitResult × List (String × RateLimitEntry) :=
  match mapGet store clientId with
  | none =>
    let entry : RateLimitEntry :=
      { count := 1, windowStart := now, blocked := false, lastReset := now }
    ({ allowed := true, remaining := maxRequests - 1,
       resetTime := jsCeilDiv1000 (now + windowMs), retryAfter := 0 },
     mapSet store clientId entry)
  | some entry =>
    if windowMs ≤ now - entry.windowStart then
      let entry' : RateLimitEntry :=
        { count := 1, windowStart := now, blocked := false, lastReset := now }
      ({ allowed := true, remaining := maxRequests - 1,
         resetTime := jsCeilDiv1000 (now + windowMs), retryAfter := 0 },
       mapSet store clientId entry')
    else if maxRequests ≤ entry.count then
      let resetTime := entry.windowStart + windowMs
      ({ allowed := false, remaining := 0,
         resetTime := jsCeilDiv1000 resetTime,
         retryAfter := jsCeilDiv1000 (resetTime - now) },
       mapSet store clientId { entry with blocked := true })
    else
      let entry' := { entry with count := entry.count + 1 }
      ({ allowed := true, remaining := maxRequests - entry'.count,
         resetTime := jsCeilDiv1000 (entry.windowStart + windowMs),
         retryAfter := 0 },
       mapSet store clientId entry')

structure ApiRequest where
  url : String
  method : String
  originHeader : Option String
  contentLengthHeader : Option String
  contentTypeHeader : Option String
  xForwardedFor : Option String
  xRealIp : Option String
  xForwardedProto : Option String
  userAgent : Option String
deriving DecidableEq

structure SecurityConfig where
  enableRateLimit : Bool
  windowMs : Int
  maxRequests : Int
  enableRequestValidation : Bool
  allowedOrigins : Option (List String)
  requireHttps : Bool
  maxRequestSizeBytes : Option Int
deriving DecidableEq

structure ValidationOutcome where
  valid : Bool
  reason : Option String
  statusCode : Option Int
deriving DecidableEq

/-- HTTPS check: `requireHttps && !url.startsWith('https://') &&
!url.includes('localhost')`. -/
def httpsRejected (cfg : SecurityConfig) (req : ApiRequest) : Bool :=
  cfg.requireHttps && !(jsStarts req.url "https://") &&
    !(jsIncludes req.url "localhost")

/-- Origin check: only when an allow-list is configured and non-empty, and
only when the request carries a truthy `Origin` header that is not in the
list. -/
def originRejected (cfg : SecurityConfig) (req : ApiRequest) : Bool :=
  match cfg.allowedOrigins, req.originHeader with
  | some os, some o => decide (0 < os.length) && !(o == "") && !(os.contains o)
  | some _, none => false
  | none, _ => false

/-- Content-Length check: truthy header and truthy configured limit, and a
parsed size strictly above the limit (JS `NaN > max` is false). -/
def sizeRejected (cfg : SecurityConfig) (req : ApiRequest) : Bool :=
  match req.contentLengthHeader, cfg.maxRequestSizeBytes with
  | some cl, some mx =>
    !(cl == "") && !(mx == 0) &&
      (match jsParseInt cl with
       | some n => decide (mx < n)
       | none => false)
  | _, _ => false

/-- Method allow-list `['GET', 'POST']`. -/
def methodRejected (req : ApiRequest) : Bool :=
  !(req.method == "GET" || req.method == "POST")

/-- Content-Type check for POST requests with a truthy header. -/
def contentTypeRejected (req : ApiRequest) : Bool :=
  req.method == "POST" &&
    (match req.contentTypeHeader with
     | some ct => !(ct == "") && !(jsIncludes ct "application/json")
     | none => false)

/-- `validateRequest`: the five rejection gates, in source order. -/
def validateRequest (cfg : SecurityConfig) (req : ApiRequest) :
    ValidationOutcome :=
  if !cfg.enableRequestValidation then
    { valid := true, reason := none, statusCode := none }
  else if httpsRejected cfg req then
    { valid := false, reason := some "HTTPS required", statusCode := some 403 }
  else if originRejected cfg req then
    { valid := false, reason := some "Invalid origin", statusCode := some 403 }
  else if sizeRejected cfg req then
    { valid := false, reason := some "Request too large", statusCode := some 413 }
  else if methodRejected req then
    { valid := false, reason := some "Method not allowed", statusCode := some 405 }
  else if contentTypeRejected req then
    { valid := false, reason := some "Invalid content type", statusCode := some 415 }
  else
    { valid := true, reason := none, statusCode := none }

/-- JS `a || b` for an optional string falling back to a default
(`null` and `''` are falsy). -/
def jsOrStr (a : Option String) (b : String) : String :=
  match a with
  | some s => if s = "" then b else s
  | none => b

/-- `getClientIdentifier`: forwarded-for / real-ip / forwarded-proto /
'unknown', combined with the base-36 hash of the user agent. -/
def getClientIdentifier (req : ApiRequest) : String :=
  let fwd := req.xForwardedFor.map (fun s => ((s.splitOn ",").headD ""))
  let ip := jsOrStr fwd (jsOrStr req.xRealIp (jsOrStr req.xForwardedProto "unknown"))
  let userAgent := jsOrStr req.userAgent "unknown"
  ip ++ "_" ++ jsStringHash36 userAgent

/-- Outcome of the wrapped route handler: a response status, or a thrown
error (which `secureEndpoint` converts to a 500). -/
inductive HandlerOutcome where
  | ok (status : Int)
  | throws
deriving DecidableEq

structure SecureResult where
  status : Int
  rateLimited : Bool
  rateLimiterConsulted : Bool
  store : List (String × RateLimitEntry)
deriving DecidableEq

/-- `secureEndpoint`: request validation, rate limiting (skipped entirely
when `NODE_ENV === 'development'` or rate limiting is disabled), then the
handler, with thrown errors mapped to 500. -/
def secureEndpoint (env : String) (cfg : SecurityConfig)
    (store : List (String × RateLimitEntry)) (req : ApiRequest) (now : Int)
    (handler : HandlerOutcome) : SecureResult :=
  if (validateRequest cfg req).valid = false then
    { status := (validateRequest cfg req).statusCode.getD 400,
      rateLimited := false, rateLimiterConsulted := false, store := store }
  else if !(env == "development") && cfg.enableRateLimit then
    if (checkRateLimit store cfg.windowMs cfg.maxRequests
          (getClientIdentifier req) now).1.allowed = false then
      { status := 429, rateLimited := true, rateLimiterConsulted := true,
        store := (checkRateLimit store cfg.windowMs cfg.maxRequests
          (getClientIdentifier req) now).2 }
    else
      match handler with
      | HandlerOutcome.ok s =>
        { status := s, rateLimited := false, rateLimiterConsulted := true,
          store := (checkRateLimit store cfg.windowMs cfg.maxRequests
            (getClientIdentifier req) now).2 }
      | HandlerOutcome.throws =>
        { status := 500, rateLimited := false, rateLimiterConsulted := true,
          store := (checkRateLimit store cfg.windowMs cfg.maxRequests
            (getClientIdentifier req) now).2 }
  else
    match handler with
    | HandlerOutcome.ok s =>
      { status := s, rateLimited := false, rateLimiterConsulted := false,
        store := store }
    | HandlerOutcome.throws =>
      { status := 500, rateLimited := false, rateLimiterConsulted := false,
        store := store }

/-! ## `EnhancedGenAILiveClient`

The reconnection / disconnect logic is embedded as a small-step machine.
`armedTimers` records every outstanding reconnection `setTimeout` callback
as `(handle, delayMs)`; `reconnectTimer` / `refreshTimer` are the handles
the instance fields currently store (`clearTimeout` cancels only those).
Connection attempts are modelled at their two observable outcomes: the
`connect()` failure path (token fetch fails or the live connection throws)
with its `reconnectAttempts = 0` reset and catch-block scheduling, and the
reconnect-timer callback around it. -/

inductive ConnStatus where
  | connected
  | connecting
  | disconnected
  | reconnecting
deriving DecidableEq

inductive ClientEvent where
  | reconnectingEv (attempt maxAttempts : Nat)
  | reconnectfailed
  | reconnected
deriving DecidableEq

structure TokenClientConfig where
  maxRetries : Nat
  retryDelayMs : Nat
deriving DecidableEq

structure ClientState where
  status : ConnStatus
  hasSession : Bool
  hasClient : Bool
  currentToken : Bool
  tokenExpiresAt : Option Int
  reconnectAttempts : Nat
  refreshTimer : Option Nat
  reconnectTimer : Option Nat
  armedTimers : List (Nat × Nat)
  nextTimerId : Nat
  events : List ClientEvent
deriving DecidableEq

/-- `clearTimeout` on a stored handle: the armed callback is discarded. -/
def clearTimeoutOpt (armed : List (Nat × Nat)) (h : Option Nat) :
    List (Nat × Nat) :=
  match h with
  | some tid => armed.filter (fun p => p.1 ≠ tid)
  | none => armed

/-- `scheduleReconnection`: terminal `reconnectfailed` at the retry cap,
otherwise increment the attempt counter, emit `reconnecting`, and arm a
timer with exponential-backoff delay `retryDelayMs * 2^(attempts-1)`. -/
def scheduleReconnection (cfg : TokenClientConfig) (s : ClientState) :
    ClientState :=
  if cfg.maxRetries ≤ s.reconnectAttempts then
    { s with events := s.events ++ [ClientEvent.reconnectfailed] }
  else
    let attempts := s.reconnectAttempts + 1
    let delay := cfg.retryDelayMs * 2 ^ (attempts - 1)
    { s with
      reconnectAttempts := attempts,
      events := s.events ++ [ClientEvent.reconnectingEv attempts cfg.maxRetries],
      reconnectTimer := some s.nextTimerId,
      armedTimers := s.armedTimers ++ [(s.nextTimerId, delay)],
      nextTimerId := s.nextTimerId + 1 }

/-- A `connect()` call whose connection attempt fails (the token fetch
returns `null` or the live connection throws): the early-return guard, the
`reconnectAttempts = 0` reset in the synchronous prefix, the
`status = 'disconnected'` in the catch block, and the catch-block
`scheduleReconnection` when `shouldRetryConnection` holds.  Returns the
boolean `connect` resolves with. -/
def connectAttemptFails (cfg : TokenClientConfig) (s : ClientState) :
    ClientState × Bool :=
  if s.status = ConnStatus.connected ∨ s.status = ConnStatus.connecting then
    (s, false)
  else
    let s1 := { s with status := ConnStatus.connecting, reconnectAttempts := 0 }
    let s2 := { s1 with status := ConnStatus.disconnected }
    if s2.reconnectAttempts < cfg.maxRetries then
      (scheduleReconnection cfg s2, false)
    else
      (s2, false)

/-- The armed reconnect timer `tid` fires and its `connect()` attempt
fails: the callback sets `status = 'reconnecting'`, awaits `connect`, and
on `success === false` calls `scheduleReconnection` again. -/
def fireReconnectTimerFail (cfg : TokenClientConfig) (s : ClientState)
    (tid : Nat) : ClientState :=
  if (s.armedTimers.filter (fun p => p.1 = tid)).isEmpty then s
  else
    let s0 := { s with
                armedTimers := s.armedTimers.filter (fun p => p.1 ≠ tid),
                status := ConnStatus.reconnecting }
    let r := connectAttemptFails cfg s0
    if r.2 then r.1 else scheduleReconnection cfg r.1

/-- `onclose` with an abnormal close code: schedules reconnection only when
the client believed itself connected. -/
def oncloseAbnormal (cfg : TokenClientConfig) (s : ClientState) :
    ClientState :=
  if s.status = ConnStatus.connected then scheduleReconnection cfg s else s

/-- `disconnect()`: early `return false` when no session handle is open;
otherwise clear both stored timers, close the session, reset the connection
fields and return `true`. -/
def disconnect (s : ClientState) : ClientState × Bool :=
  if s.hasSession = false then
    (s, false)
  else
    let armed1 := clearTimeoutOpt s.armedTimers s.refreshTimer
    let armed2 := clearTimeoutOpt armed1 s.reconnectTimer
    ({ s with
       refreshTimer := none,
       reconnectTimer := none,
       armedTimers := armed2,
       hasSession := false,
       status := ConnStatus.disconnected,
       hasClient := false,
       currentToken := false,
       tokenExpiresAt := none,
       reconnectAttempts := 0 }, true)

/-! ### `getValidToken` request deduplication

The async flow is modelled at promise granularity: `pending` is the
`pendingTokenRequest` field (the id of the in-flight `fetchValidToken`
promise), `fetchCount` counts calls into `fetchValidToken`, and settling a
promise runs the creator's `finally`, which nulls the field. -/

structure DedupState where
  pending : Option Nat
  fetchCount : Nat
  nextPromiseId : Nat
deriving DecidableEq

/-- The synchronous prefix of `getValidToken`: adopt the in-flight promise
if one exists, otherwise start `fetchValidToken` and record it in
`pendingTokenRequest`.  Returns the promise id the caller awaits. -/
def getValidToken (s : DedupState) : Nat × DedupState :=
  match s.pending with
  | some p => (p, s)
  | none =>
    (s.nextPromiseId,
     { pending := some s.nextPromiseId,
       fetchCount := s.fetchCount + 1,
       nextPromiseId := s.nextPromiseId + 1 })

/-- Promise `p` settles (with success or failure — `success` is unread
because `finally` runs either way): the creator's `finally` clears
`pendingTokenRequest`. -/
def settleTokenRequest (s : DedupState) (p : Nat) (_success : Bool) :
    DedupState :=
  if s.pending = some p then { s with pending := none } else s

/-! ### `scheduleTokenRefresh`

Pure in-out embedding: the inputs are the fields the method reads
(`_tokenExpiresAt`, the stored timer, the threshold, the clock), the output
records what it armed. -/

structure RefreshSchedule where
  prevTimerCancelled : Bool
  refreshTimerDelay : Option Int
  nextTickRefresh : Bool
  syncRefreshCall : Bool
deriving DecidableEq

/-- `scheduleTokenRefresh`: cancel any stored timer; without an expiry do
nothing; otherwise arm a one-shot `refreshToken` timer at
`(expiresAt - now) - refreshThresholdMinutes*60000` when positive, else a
zero-delay timer (next tick, not stored in `refreshTimer`, never a
synchronous call). -/
def scheduleTokenRefresh (tokenExpiresAt : Option Int) (now : Int)
    (refreshThresholdMinutes : Int) (hadTimer : Bool) : RefreshSchedule :=
  match tokenExpiresAt with
  | none =>
    { prevTimerCancelled := hadTimer, refreshTimerDelay := none,
      nextTickRefresh := false, syncRefreshCall := false }
  | some expiresAt =>
    let timeUntilExpiry := expiresAt - now
    let refreshThreshold := refreshThresholdMinutes * 60 * 1000
    let refreshIn := timeUntilExpiry - refreshThreshold
    if 0 < refreshIn then
      { prevTimerCancelled := hadTimer, refreshTimerDelay := some refreshIn,
        nextTickRefresh := false, syncRefreshCall := false }
    else
      { prevTimerCancelled := hadTimer, refreshTimerDelay := none,
        nextTickRefresh := true, syncRefreshCall := false }

/-! ## Claims -/

/-- C7: `scheduleTokenRefresh` computes
`refreshIn = (expiresAt - now) - refreshThresholdMinutes*60000`; when
positive it arms a single one-shot refresh timer at exactly that delay,
when non-positive it schedules the refresh on the next tick (zero-delay
timer, no synchronous call), and a previously armed refresh timer is always
cancelled first. -/
theorem c7_refresh_scheduling (expiresAt now refreshThresholdMinutes : Int)
    (hadTimer : Bool) :
    (0 < (expiresAt - now) - refreshThresholdMinutes * 60 * 1000 →
      scheduleTokenRefresh (some expiresAt) now refreshThresholdMinutes hadTimer =
        { prevTimerCancelled := hadTimer,
          refreshTimerDelay :=
            some ((expiresAt - now) - refreshThresholdMinutes * 60 * 1000),
          nextTickRefresh := false, syncRefreshCall := false }) ∧
    ((expiresAt - now) - refreshThresholdMinutes * 60 * 1000 ≤ 0 →
      scheduleTokenRefresh (some expiresAt) now refreshThresholdMinutes hadTimer =
        { prevTimerCancelled := hadTimer, refreshTimerDelay := none,
          nextTickRefresh := true, syncRefreshCall := false }) := by
  constructor
  · intro h
    simp [scheduleTokenRefresh, h]
  · intro h
    rw [scheduleTokenRefresh]
    rw [if_neg (by omega)]

/-- C7 witness: a 30-minute token with a 5-minute threshold is scheduled at
`t + 25min`; a token with less than 5 minutes remaining goes to the next
tick. -/
theorem c7_refresh_scheduling_witness :
    scheduleTokenRefresh (some (1000000 + 30 * 60 * 1000)) 1000000 5 true =
      { prevTimerCancelled := true, refreshTimerDelay := some (25 * 60 * 1000),
        nextTickRefresh := false, syncRefreshCall := false } ∧
    scheduleTokenRefresh (some (1000000 + 4 * 60 * 1000)) 1000000 5 false =
      { prevTimerCancelled := false, refreshTimerDelay := none,
        nextTickRefresh := true, syncRefreshCall := false } := by
  constructor
  · have h := (c7_refresh_scheduling (1000000 + 30 * 60 * 1000) 1000000 5 true).1
      (by norm_num)
    rw [h]
    norm_num
  · exact (c7_refresh_scheduling (1000000 + 4 * 60 * 1000) 1000000 5 false).2
      (by norm_num)

/-- C2: when a credential fetch is in flight, `getValidToken` hands every
caller the same promise and starts no second fetch; settling the promise
(success or failure) clears the in-flight marker; and two calls issued
before the first fetch settles trigger exactly one `fetchValidToken`. -/
theorem c2_token_request_dedup (s : DedupState) (b : Bool) :
    (∀ p, s.pending = some p → getValidToken s = (p, s)) ∧
    ((settleTokenRequest ((getValidToken s).2) ((getValidToken s).1) b).pending
      = none) ∧
    (s.pending = none →
      (getValidToken (getValidToken s).2).1 = (getValidToken s).1 ∧
      (getValidToken (getValidToken s).2).2 = (getValidToken s).2 ∧
      (getValidToken (getValidToken s).2).2.fetchCount = s.fetchCount + 1) := by
  refine ⟨?_, ?_, ?_⟩
  · intro p hp
    simp [getValidToken, hp]
  · rcases hp : s.pending with _ | p
    · simp [getValidToken, hp, settleTokenRequest]
    · simp [getValidToken, hp, settleTokenRequest]
  · intro hp
    simp [getValidToken, hp]

/-- C2 witness: from an idle session state, two back-to-back `connect`-time
token requests share one fetch. -/
theorem c2_token_request_dedup_witness :
    (getValidToken (getValidToken ⟨none, 0, 0⟩).2).2.fetchCount = 0 + 1 ∧
    (settleTokenRequest ((getValidToken ⟨none, 0, 0⟩).2)
      ((getValidToken ⟨none, 0, 0⟩).1) false).pending = none := by
  exact ⟨((c2_token_request_dedup ⟨none, 0, 0⟩ false).2.2 rfl).2.2,
    (c2_token_request_dedup ⟨none, 0, 0⟩ false).2.1⟩

/-- C9: a request with no `Origin` header is never rejected with
`Invalid origin` — the allow-list gate runs only when the header is
present. -/
theorem c9_absent_origin_passes (cfg : SecurityConfig) (req : ApiRequest)
    (h : req.originHeader = none) :
    (validateRequest cfg req).reason ≠ some "Invalid origin" := by
  have ho : originRejected cfg req = false := by
    rw [originRejected, h]
    rcases cfg.allowedOrigins with _ | os <;> simp
  unfold validateRequest
  rw [ho]
  rcases (!cfg.enableRequestValidation) with _ | _ <;>
    rcases httpsRejected cfg req with _ | _ <;>
      rcases sizeRejected cfg req with _ | _ <;>
        rcases methodRejected req with _ | _ <;>
          rcases contentTypeRejected req with _ | _ <;>
            simp [validateRequest]

/-- C9 witness: an origin-less non-browser POST against the default config
shape passes the origin gate. -/
theorem c9_absent_origin_passes_witness :
    (validateRequest
      { enableRateLimit := true, windowMs := 3600000, maxRequests := 10,
        enableRequestValidation := true,
        allowedOrigins := some ["http://localhost:3000"],
        requireHttps := false, maxRequestSizeBytes := some 10240 }
      { url := "http://localhost:3000/api/ephemeral-token", method := "POST",
        originHeader := none, contentLengthHeader := some "42",
        contentTypeHeader := some "application/json",
        xForwardedFor := none, xRealIp := none, xForwardedProto := none,
        userAgent := some "curl/8.0" }).reason ≠ some "Invalid origin" := by
  exact c9_absent_origin_passes _ _ rfl

theorem clearTimeoutOpt_subset (armed : List (Nat × Nat)) (h : Option Nat)
    (p : Nat × Nat) (hp : p ∈ clearTimeoutOpt armed h) : p ∈ armed := by
  rcases h with _ | tid
  · exact hp
  · exact (List.mem_filter.mp hp).1

theorem clearTimeoutOpt_cleared (armed : List (Nat × Nat)) (tid : Nat)
    (p : Nat × Nat) (hp : p ∈ clearTimeoutOpt armed (some tid)) : p.1 ≠ tid := by
  have := (List.mem_filter.mp hp).2
  simpa using this

/-- C1 scenario: the default reconnection config
(`retryDelayMs = 1000`, `maxRetries = 3`). -/
def c1Cfg : TokenClientConfig := { maxRetries := 3, retryDelayMs := 1000 }

/-- C1 scenario: a connected session with no reconnection history. -/
def c1Connected : ClientState :=
  { status := ConnStatus.connected, hasSession := true, hasClient := true,
    currentToken := true, tokenExpiresAt := some 1800000,
    reconnectAttempts := 0, refreshTimer := none, reconnectTimer := none,
    armedTimers := [], nextTimerId := 0, events := [] }

/-- Failure 1: the session closes abnormally. -/
def c1Fail1 : ClientState := oncloseAbnormal c1Cfg c1Connected

/-- Failure 2: the armed timer fires and its `connect()` attempt fails. -/
def c1Fail2 : ClientState := fireReconnectTimerFail c1Cfg c1Fail1 0

/-- Failure 3: the earliest remaining timer fires; `connect()` fails again. -/
def c1Fail3 : ClientState := fireReconnectTimerFail c1Cfg c1Fail2 1

/-- Failure 4: the next timer fires; `connect()` fails again. -/
def c1Fail4 : ClientState := fireReconnectTimerFail c1Cfg c1Fail3 2

/-- C1: the claimed backoff sequence does not happen.  After failure 1 a
1000 ms retry is armed as claimed, but `connect()` resets
`reconnectAttempts` to 0 before each attempt and the timer callback
schedules on top of the catch block, so failure 2 leaves TWO armed retries
of 1000 ms and 2000 ms (the claim requires a single 2000 ms one), the
`reconnecting` event for attempt 1/3 is emitted again on a later failure,
and after 4 consecutive failures no terminal `reconnectfailed` has been
emitted, the attempt counter is stuck at 2, and further retries remain
armed. -/
theorem c1_backoff_divergence :
    c1Fail1.armedTimers.map Prod.snd = [1000] ∧
    c1Fail2.armedTimers.map Prod.snd = [1000, 2000] ∧
    ClientEvent.reconnectingEv 1 3 ∈ c1Fail3.events ∧
    ClientEvent.reconnectfailed ∉ c1Fail4.events ∧
    c1Fail4.reconnectAttempts = 2 ∧
    c1Fail4.armedTimers.map Prod.snd = [1000, 2000, 1000, 2000] := by decide

/-- C3 scenario: a fresh client whose first `connect()` fails — the catch
block arms a reconnect timer while `_session` was never set. -/
def c3FreshState : ClientState :=
  { status := ConnStatus.disconnected, hasSession := false, hasClient := false,
    currentToken := false, tokenExpiresAt := none, reconnectAttempts := 0,
    refreshTimer := none, reconnectTimer := none, armedTimers := [],
    nextTimerId := 0, events := [] }

def c3AfterFailedConnect : ClientState :=
  (connectAttemptFails c1Cfg c3FreshState).1

/-- C3 counterexample: with no open session but an armed reconnect timer
(the state a failed first `connect()` leaves behind), `disconnect()` hits
the `!this.session` early return and cancels nothing — the armed timer
survives and can fire afterwards, contradicting the claim that
`disconnect()` cancels both timers in every state. -/
theorem c3_counterexample :
    c3AfterFailedConnect.reconnectTimer = some 0 ∧
    c3AfterFailedConnect.armedTimers = [(0, 1000)] ∧
    (disconnect c3AfterFailedConnect).2 = false ∧
    (disconnect c3AfterFailedConnect).1 = c3AfterFailedConnect := by decide

/-- C3 (amended): when a session handle is open, `disconnect()` cancels the
stored refresh and reconnect timers (their armed callbacks are discarded),
closes the session, clears the credential fields, resets the attempt
counter and transitions to `Disconnected`, returning `true`; when no
session handle is open it returns `false` and changes nothing (so a
reconnect timer armed by a failed `connect()` is not cancelled); a second
`disconnect()` call is always a no-op returning `false`. -/
theorem c3_disconnect_behaviour (s : ClientState) :
    (s.hasSession = true →
      (disconnect s).2 = true ∧
      (disconnect s).1.refreshTimer = none ∧
      (disconnect s).1.reconnectTimer = none ∧
      (∀ tid, s.refreshTimer = some tid ∨ s.reconnectTimer = some tid →
        ∀ p ∈ (disconnect s).1.armedTimers, p.1 ≠ tid) ∧
      (disconnect s).1.hasSession = false ∧
      (disconnect s).1.hasClient = false ∧
      (disconnect s).1.currentToken = false ∧
      (disconnect s).1.tokenExpiresAt = none ∧
      (disconnect s).1.reconnectAttempts = 0 ∧
      (disconnect s).1.status = ConnStatus.disconnected) ∧
    (s.hasSession = false → disconnect s = (s, false)) ∧
    disconnect (disconnect s).1 = ((disconnect s).1, false) := by
  refine ⟨?_, ?_, ?_⟩
  · intro hs
    have hs' : ¬(s.hasSession = false) := by rw [hs]; simp
    refine ⟨?_, ?_, ?_, ?_, ?_, ?_, ?_, ?_, ?_, ?_⟩ <;>
      simp only [disconnect, if_neg hs']
    · intro tid htid p hp
      rcases htid with h | h
      · have h1 : p ∈ clearTimeoutOpt s.armedTimers s.refreshTimer :=
          clearTimeoutOpt_subset _ _ p hp
        rw [h] at h1
        exact clearTimeoutOpt_cleared _ _ p h1
      · rw [h] at hp
        exact clearTimeoutOpt_cleared _ _ p hp
  · intro hs
    simp [disconnect, hs]
  · rcases hs : s.hasSession with _ | _
    · have h1 : disconnect s = (s, false) := by simp [disconnect, hs]
      rw [h1]
      simp [disconnect, hs]
    · have hs' : ¬(s.hasSession = false) := by rw [hs]; simp
      simp only [disconnect, if_neg hs']
      simp [disconnect]

/-- A connected client with both timers stored. -/
def c3OpenState : ClientState :=
  { status := ConnStatus.connected, hasSession := true, hasClient := true,
    currentToken := true, tokenExpiresAt := some 5, reconnectAttempts := 1,
    refreshTimer := some 7, reconnectTimer := some 8,
    armedTimers := [(7, 100), (8, 200)], nextTimerId := 9, events := [] }

/-- C3 witness for the amended theorem: a connected client with both timers
stored, and a session-less client, behave as stated. -/
theorem c3_disconnect_behaviour_witness :
    (disconnect c3OpenState).2 = true ∧
    (∀ p ∈ (disconnect c3OpenState).1.armedTimers, p.1 ≠ 7) ∧
    disconnect c3FreshState = (c3FreshState, false) := by
  refine ⟨?_, ?_, ?_⟩
  · exact ((c3_disconnect_behaviour c3OpenState).1 rfl).1
  · exact ((c3_disconnect_behaviour c3OpenState).1 rfl).2.2.2.1 7 (Or.inl rfl)
  · exact (c3_disconnect_behaviour c3FreshState).2.1 rfl

/-- The successful consumption of a credential: one use removed,
`lastUsed` stamped. -/
def consumedToken (t : EphToken) (now : Int) : EphToken :=
  { t with usesRemaining := t.usesRemaining - 1, lastUsed := some now }

def consumedEntry (e : TokenEntry) (now : Int) : TokenEntry :=
  { e with token := consumedToken e.token now }

/-- C8: `validateAndUseToken` fails with `Token not found` when the derived
id has no entry, `Token expired` when `expiresAt` is in the past, and
`Token usage exhausted` when no uses remain — leaving the store untouched
in each failure case; on success it decrements `usesRemaining` by exactly
one and stamps `lastUsed`, touching no other entry and no session data. -/
theorem c8_validate_and_use (m : TokenManager) (tokenStr : String) (now : Int) :
    (mapGet m.tokenStorage (generateTokenId tokenStr) = none →
      validateAndUseToken m tokenStr now =
        ({ valid := false, token := none, reason := some "Token not found" }, m)) ∧
    (∀ e, mapGet m.tokenStorage (generateTokenId tokenStr) = some e →
      e.token.expiresAt < now →
      validateAndUseToken m tokenStr now =
        ({ valid := false, token := none, reason := some "Token expired" }, m)) ∧
    (∀ e, mapGet m.tokenStorage (generateTokenId tokenStr) = some e →
      ¬e.token.expiresAt < now → e.token.usesRemaining ≤ 0 →
      validateAndUseToken m tokenStr now =
        ({ valid := false, token := none, reason := some "Token usage exhausted" }, m)) ∧
    (∀ e, mapGet m.tokenStorage (generateTokenId tokenStr) = some e →
      ¬e.token.expiresAt < now → 0 < e.token.usesRemaining →
      (validateAndUseToken m tokenStr now).1 =
        { valid := true, token := some (consumedToken e.token now), reason := none } ∧
      (consumedToken e.token now).usesRemaining = e.token.usesRemaining - 1 ∧
      (consumedToken e.token now).lastUsed = some now ∧
      mapGet (validateAndUseToken m tokenStr now).2.tokenStorage
        (generateTokenId tokenStr) = some (consumedEntry e now) ∧
      (∀ id, id ≠ generateTokenId tokenStr →
        mapGet (validateAndUseToken m tokenStr now).2.tokenStorage id =
          mapGet m.tokenStorage id) ∧
      (validateAndUseToken m tokenStr now).2.sessionTokens = m.sessionTokens) := by
  refine ⟨?_, ?_, ?_, ?_⟩
  · intro h
    simp [validateAndUseToken, h]
  · intro e he hexp
    simp [validateAndUseToken, he, hexp]
  · intro e he hexp huse
    have huse' : e.token.usesRemaining ≤ 0 := huse
    simp [validateAndUseToken, he, hexp, huse']
  · intro e he hexp huse
    have huse' : ¬e.token.usesRemaining ≤ 0 := by omega
    refine ⟨?_, rfl, rfl, ?_, ?_, ?_⟩
    · simp [validateAndUseToken, he, hexp, huse', consumedToken]
    · simp only [validateAndUseToken, he, if_neg hexp, if_neg huse']
      exact mapGet_set_self _ _ _
    · intro id hid
      simp only [validateAndUseToken, he, if_neg hexp, if_neg huse']
      exact mapGet_set_ne _ _ _ _ hid
    · simp [validateAndUseToken, he, hexp, huse']

/-- A concrete one-use credential for the C8 witness. -/
def c8Entry : TokenEntry :=
  { token := { tokenStr := "tk", expiresAt := 900000, usesRemaining := 1,
               sessionId := "s1", createdAt := 0, lastUsed := none },
    refreshCount := 0, issuedFor := "client" }

def c8Mgr : TokenManager :=
  { tokenStorage := [(generateTokenId "tk", c8Entry)],
    sessionTokens := [("s1", [generateTokenId "tk"])],
    maxTokensPerSession := 3, defaultExpirationMinutes := 30,
    defaultUses := 1 }

/-- C8 witness: consuming the stored credential at `now = 1000` succeeds,
decrements its use count to 0 and stamps `lastUsed`; an unknown credential
is rejected with `Token not found`. -/
theorem c8_validate_and_use_witness :
    (validateAndUseToken c8Mgr "tk" 1000).1 =
      { valid := true, token := some (consumedToken c8Entry.token 1000),
        reason := none } ∧
    mapGet (validateAndUseToken c8Mgr "tk" 1000).2.tokenStorage
      (generateTokenId "tk") = some (consumedEntry c8Entry 1000) ∧
    validateAndUseToken c8Mgr "zz" 1000 =
      ({ valid := false, token := none, reason := some "Token not found" },
       c8Mgr) := by
  have h4 := (c8_validate_and_use c8Mgr "tk" 1000).2.2.2 c8Entry (by decide)
    (by decide) (by decide)
  refine ⟨h4.1, h4.2.2.2.1, ?_⟩
  exact (c8_validate_and_use c8Mgr "zz" 1000).1 (by decide)

/-- Idle time used by the cleanup sweep: since last use, or since creation
when never used. -/
def idleSince (now : Int) (e : TokenEntry) : Int :=
  match e.token.lastUsed with
  | some t => now - t
  | none => now - e.token.createdAt

theorem shouldCleanup_iff (now : Int) (e : TokenEntry) :
    shouldCleanup now e = true ↔
      ((e.token.expiresAt < now ∨ e.token.usesRemaining ≤ 0) ∧
        5 * 60 * 1000 < idleSince now e) := by
  rw [shouldCleanup, idleSince]
  rcases e.token.lastUsed with _ | t <;>
    · simp only [Bool.and_eq_true, Bool.or_eq_true, decide_eq_true_eq]

/-- C6 (amended): the cleanup sweep removes a stored credential exactly
when it is expired or exhausted AND has been idle strictly longer than 5
minutes (since last use, or creation when never used); an expired or
exhausted credential idle for 5 minutes or less is retained unchanged, and
a still-valid credential survives with its entry intact regardless of idle
time. -/
theorem c6_cleanup_sweep (m : TokenManager) (now : Int) (id : String)
    (e : TokenEntry) (hnd : (mapKeys m.tokenStorage).Nodup)
    (h : mapGet m.tokenStorage id = some e) :
    (mapGet (cleanup m now).1.tokenStorage id = none ↔
      ((e.token.expiresAt < now ∨ e.token.usesRemaining ≤ 0) ∧
        5 * 60 * 1000 < idleSince now e)) ∧
    (¬((e.token.expiresAt < now ∨ e.token.usesRemaining ≤ 0) ∧
        5 * 60 * 1000 < idleSince now e) →
      mapGet (cleanup m now).1.tokenStorage id = some e) := by
  have hf := mapGet_filter m.tokenStorage
    (fun p => !shouldCleanup now p.2) id e hnd h
  have hstore : (cleanup m now).1.tokenStorage =
      m.tokenStorage.filter (fun p => !shouldCleanup now p.2) := rfl
  rw [hstore, hf]
  rcases hc : shouldCleanup now e with _ | _
  · have hcond : ¬((e.token.expiresAt < now ∨ e.token.usesRemaining ≤ 0) ∧
        5 * 60 * 1000 < idleSince now e) := by
      intro hcl
      have hx := (shouldCleanup_iff now e).mpr hcl
      rw [hc] at hx
      cases hx
    constructor
    · simp [hc, hcond]
      intro hx
      by_contra hy
      push_neg at hy
      exact hcond ⟨hx, by omega⟩
    · intro _
      simp [hc]
  · have hcond := (shouldCleanup_iff now e).mp hc
    constructor
    · simp [hc, hcond]
      have h2 := hcond.2
      omega
    · intro hn
      exact absurd hcond hn

/-- The exhausted-but-recently-idle credential for C6. -/
def c6Entry : TokenEntry :=
  { token := { tokenStr := "tok", expiresAt := 10000000, usesRemaining := 0,
               sessionId := "s", createdAt := 0, lastUsed := some 0 },
    refreshCount := 0, issuedFor := "c" }

def c6Mgr : TokenManager :=
  { tokenStorage := [("token_1", c6Entry)],
    sessionTokens := [("s", ["token_1"])],
    maxTokensPerSession := 3, defaultExpirationMinutes := 30,
    defaultUses := 1 }

/-- C6 counterexample: a credential that is exhausted and has been idle for
exactly 5 minutes — "at least 5 minutes" idle in the claim's terms — is
NOT removed by `cleanup`, because the code requires idle time strictly
greater than `5 * 60 * 1000` ms. -/
theorem c6_counterexample :
    c6Entry.token.usesRemaining ≤ 0 ∧
    5 * 60 * 1000 ≤ idleSince 300000 c6Entry ∧
    mapGet (cleanup c6Mgr 300000).1.tokenStorage "token_1" = some c6Entry := by
  decide

/-- C6 witness: the same credential is swept once idle for more than 5
minutes, and retained while idle for less. -/
theorem c6_cleanup_sweep_witness :
    mapGet (cleanup c6Mgr 400000).1.tokenStorage "token_1" = none ∧
    mapGet (cleanup c6Mgr 200000).1.tokenStorage "token_1" = some c6Entry := by
  constructor
  · exact (c6_cleanup_sweep c6Mgr 400000 "token_1" c6Entry (by decide)
      (by decide)).1.mpr (by decide)
  · exact (c6_cleanup_sweep c6Mgr 200000 "token_1" c6Entry (by decide)
      (by decide)).2 (by decide)

theorem validateRequest_no_429 (cfg : SecurityConfig) (req : ApiRequest) :
    (validateRequest cfg req).statusCode.getD 400 ≠ 429 := by
  unfold validateRequest
  rcases (!cfg.enableRequestValidation) with _ | _ <;>
    rcases httpsRejected cfg req with _ | _ <;>
      rcases originRejected cfg req with _ | _ <;>
        rcases sizeRejected cfg req with _ | _ <;>
          rcases methodRejected req with _ | _ <;>
            rcases contentTypeRejected req with _ | _ <;> simp

/-- C10: when `NODE_ENV` is `development`, `secureEndpoint` never consults
the rate limiter and never produces a 429 (unless the wrapped handler
itself returns one, which the token handlers do not); conversely the
rate-limit branch is reachable only outside development with rate limiting
enabled. -/
theorem c10_dev_mode_skips_rate_limit (env : String) (cfg : SecurityConfig)
    (store : List (String × RateLimitEntry)) (req : ApiRequest) (now : Int)
    (handler : HandlerOutcome) :
    (env = "development" →
      (secureEndpoint env cfg store req now handler).rateLimiterConsulted = false ∧
      ((∀ s, handler = HandlerOutcome.ok s → s ≠ 429) →
        (secureEndpoint env cfg store req now handler).status ≠ 429)) ∧
    ((secureEndpoint env cfg store req now handler).rateLimiterConsulted = true →
      env ≠ "development" ∧ cfg.enableRateLimit = true) := by
  constructor
  · intro henv
    subst henv
    have hdev : (!("development" == "development") && cfg.enableRateLimit) = false := by
      simp
    by_cases hv : (validateRequest cfg req).valid = false
    · constructor
      · simp [secureEndpoint, hv]
      · intro _
        simp [secureEndpoint, hv]
        exact validateRequest_no_429 cfg req
    · constructor
      · rcases handler with s | _ <;> simp [secureEndpoint, hv, hdev]
      · intro hh
        rcases hho : handler with s | _
        · have hs := hh s hho
          simp [secureEndpoint, hv, hdev, hs]
        · simp [secureEndpoint, hv, hdev]
  · intro hcons
    by_cases hc : ((!(env == "development")) && cfg.enableRateLimit) = true
    · have h1 := Bool.and_eq_true_iff.mp hc
      constructor
      · intro he
        subst he
        simp at h1
      · exact h1.2
    · exfalso
      have hfalse : (secureEndpoint env cfg store req now handler).rateLimiterConsulted = false := by
        by_cases hv : (validateRequest cfg req).valid = false
        · simp [secureEndpoint, hv]
        · have hc' : ((!(env == "development")) && cfg.enableRateLimit) = false := by
            simpa using hc
          rcases handler with s | _ <;> simp [secureEndpoint, hv, hc']
      rw [hfalse] at hcons
      cases hcons

/-- C10 scenario: a development-mode request against the default config. -/
def c10Req : ApiRequest :=
  { url := "http://localhost:3000/api/ephemeral-token", method := "POST",
    originHeader := some "http://localhost:3000",
    contentLengthHeader := some "42",
    contentTypeHeader := some "application/json", xForwardedFor := none,
    xRealIp := none, xForwardedProto := none, userAgent := some "jest" }

def c10Cfg : SecurityConfig :=
  { enableRateLimit := true, windowMs := 3600000, maxRequests := 10,
    enableRequestValidation := true,
    allowedOrigins := some ["http://localhost:3000"], requireHttps := false,
    maxRequestSizeBytes := some 10240 }

/-- C10 witness: in development the limiter is never consulted and the
response is not a 429. -/
theorem c10_dev_mode_skips_rate_limit_witness :
    (secureEndpoint "development" c10Cfg [] c10Req 0
      (HandlerOutcome.ok 200)).rateLimiterConsulted = false ∧
    (secureEndpoint "development" c10Cfg [] c10Req 0
      (HandlerOutcome.ok 200)).status ≠ 429 := by
  have h := (c10_dev_mode_skips_rate_limit "development" c10Cfg [] c10Req 0
    (HandlerOutcome.ok 200)).1 rfl
  refine ⟨h.1, h.2 ?_⟩
  intro s hs
  cases hs
  decide

/-! ### Rate limiting (C5) -/

theorem jsCeilDiv1000_pos (x : Int) (h : 1 ≤ x) : 0 < jsCeilDiv1000 x := by
  rw [jsCeilDiv1000]
  omega

/-- One request's effect on the rate-limit store. -/
def rlStep (windowMs maxRequests : Int) (clientId : String)
    (store : List (String × RateLimitEntry)) (now : Int) :
    List (String × RateLimitEntry) :=
  (checkRateLimit store windowMs maxRequests clientId now).2

/-- A sequence of requests at the given times. -/
def rlCalls (windowMs maxRequests : Int) (clientId : String)
    (store : List (String × RateLimitEntry)) :
    List Int → List (String × RateLimitEntry)
  | [] => store
  | t :: ts =>
    rlCalls windowMs maxRequests clientId
      (rlStep windowMs maxRequests clientId store t) ts

theorem checkRateLimit_fresh (store : List (String × RateLimitEntry))
    (wm mx : Int) (cid : String) (now : Int)
    (h : mapGet store cid = none) :
    checkRateLimit store wm mx cid now =
      ({ allowed := true, remaining := mx - 1,
         resetTime := jsCeilDiv1000 (now + wm), retryAfter := 0 },
       mapSet store cid
         { count := 1, windowStart := now, blocked := false,
           lastReset := now }) := by
  rw [checkRateLimit, h]

theorem checkRateLimit_reset (store : List (String × RateLimitEntry))
    (wm mx : Int) (cid : String) (now : Int) (e : RateLimitEntry)
    (h : mapGet store cid = some e) (hw : wm ≤ now - e.windowStart) :
    checkRateLimit store wm mx cid now =
      ({ allowed := true, remaining := mx - 1,
         resetTime := jsCeilDiv1000 (now + wm), retryAfter := 0 },
       mapSet store cid
         { count := 1, windowStart := now, blocked := false,
           lastReset := now }) := by
  simp only [checkRateLimit, h]
  rw [if_pos hw]

theorem checkRateLimit_blocked (store : List (String × RateLimitEntry))
    (wm mx : Int) (cid : String) (now : Int) (e : RateLimitEntry)
    (h : mapGet store cid = some e) (hw : now - e.windowStart < wm)
    (hcnt : mx ≤ e.count) :
    checkRateLimit store wm mx cid now =
      ({ allowed := false, remaining := 0,
         resetTime := jsCeilDiv1000 (e.windowStart + wm),
         retryAfter := jsCeilDiv1000 (e.windowStart + wm - now) },
       mapSet store cid { e with blocked := true }) := by
  simp only [checkRateLimit, h]
  rw [if_neg (by omega), if_pos hcnt]

theorem checkRateLimit_incr (store : List (String × RateLimitEntry))
    (wm mx : Int) (cid : String) (now : Int) (e : RateLimitEntry)
    (h : mapGet store cid = some e) (hw : now - e.windowStart < wm)
    (hcnt : e.count < mx) :
    checkRateLimit store wm mx cid now =
      ({ allowed := true, remaining := mx - (e.count + 1),
         resetTime := jsCeilDiv1000 (e.windowStart + wm), retryAfter := 0 },
       mapSet store cid { e with count := e.count + 1 }) := by
  simp only [checkRateLimit, h]
  rw [if_neg (by omega), if_neg (by omega)]

/-- Running within-window requests from an existing entry: the count climbs
to the cap and stays there, the window anchor never moves. -/
theorem rlCalls_entry (wm mx : Int) (cid : String) (t1 : Int) :
    ∀ (ts : List Int) (store : List (String × RateLimitEntry))
      (e : RateLimitEntry),
      mapGet store cid = some e → e.windowStart = t1 → e.lastReset = t1 →
      1 ≤ e.count → e.count ≤ mx → (∀ t ∈ ts, t - t1 < wm) →
      ∃ e', mapGet (rlCalls wm mx cid store ts) cid = some e' ∧
        e'.count = min (e.count + ts.length) mx ∧
        e'.windowStart = t1 ∧ e'.lastReset = t1 := by
  intro ts
  induction ts with
  | nil =>
    intro store e h hws hlr h1 hle _
    refine ⟨e, h, ?_, hws, hlr⟩
    simp
    omega
  | cons t ts ih =>
    intro store e h hws hlr h1 hle hts
    have hw : t - e.windowStart < wm := by
      rw [hws]
      exact hts t (List.mem_cons_self t ts)
    have hts' : ∀ t' ∈ ts, t' - t1 < wm :=
      fun t' ht' => hts t' (List.mem_cons_of_mem t ht')
    by_cases hcnt : e.count < mx
    · have hstep : rlStep wm mx cid store t =
          mapSet store cid { e with count := e.count + 1 } := by
        rw [rlStep, checkRateLimit_incr store wm mx cid t e h hw hcnt]
      have hget : mapGet (mapSet store cid { e with count := e.count + 1 }) cid
          = some { e with count := e.count + 1 } := mapGet_set_self _ _ _
      have hrec := ih (mapSet store cid { e with count := e.count + 1 })
        { e with count := e.count + 1 } hget hws hlr (by simp; omega)
        (by simp; omega) hts'
      rcases hrec with ⟨e', he', hc', hws', hlr'⟩
      refine ⟨e', ?_, ?_, hws', hlr'⟩
      · rw [rlCalls, hstep]
        exact he'
      · rw [hc']
        simp
        omega
    · have hcnt' : mx ≤ e.count := by omega
      have hstep : rlStep wm mx cid store t =
          mapSet store cid { e with blocked := true } := by
        rw [rlStep, checkRateLimit_blocked store wm mx cid t e h hw hcnt']
      have hget : mapGet (mapSet store cid { e with blocked := true }) cid
          = some { e with blocked := true } := mapGet_set_self _ _ _
      have hrec := ih (mapSet store cid { e with blocked := true })
        { e with blocked := true } hget hws hlr (by simp; omega)
        (by simp; omega) hts'
      rcases hrec with ⟨e', he', hc', hws', hlr'⟩
      refine ⟨e', ?_, ?_, hws', hlr'⟩
      · rw [rlCalls, hstep]
        exact he'
      · rw [hc']
        simp
        omega

/-- C5: with `maxRequests = 10` and `windowMs = 60min`, for a fixed client
key starting fresh: the 10th request within one window is allowed with
`remaining = 0`; the 11th within the same window is refused with a positive
`retryAfter`; and a request at or after `windowStart + windowMs` resets the
window, allowed with `remaining = maxRequests - 1`. -/
theorem c5_rate_limit_boundary (store : List (String × RateLimitEntry))
    (cid : String) (t1 : Int) (ts : List Int) (t10 t11 tr : Int)
    (h0 : mapGet store cid = none) (hlen : ts.length = 8)
    (hts : ∀ t ∈ ts, t - t1 < 3600000)
    (h10 : t10 - t1 < 3600000) (h11 : t11 - t1 < 3600000)
    (hr : 3600000 ≤ tr - t1) :
    ((checkRateLimit (rlCalls 3600000 10 cid store (t1 :: ts))
        3600000 10 cid t10).1.allowed = true ∧
     (checkRateLimit (rlCalls 3600000 10 cid store (t1 :: ts))
        3600000 10 cid t10).1.remaining = 0) ∧
    ((checkRateLimit (checkRateLimit (rlCalls 3600000 10 cid store (t1 :: ts))
        3600000 10 cid t10).2 3600000 10 cid t11).1.allowed = false ∧
     0 < (checkRateLimit (checkRateLimit (rlCalls 3600000 10 cid store (t1 :: ts))
        3600000 10 cid t10).2 3600000 10 cid t11).1.retryAfter) ∧
    ((checkRateLimit (checkRateLimit (checkRateLimit
        (rlCalls 3600000 10 cid store (t1 :: ts))
        3600000 10 cid t10).2 3600000 10 cid t11).2 3600000 10 cid tr).1.allowed
        = true ∧
     (checkRateLimit (checkRateLimit (checkRateLimit
        (rlCalls 3600000 10 cid store (t1 :: ts))
        3600000 10 cid t10).2 3600000 10 cid t11).2 3600000 10 cid tr).1.remaining
        = 9) := by
  -- the first call creates the window anchored at t1
  have hstep1 : rlStep 3600000 10 cid store t1 =
      mapSet store cid
        { count := 1, windowStart := t1, blocked := false, lastReset := t1 } := by
    rw [rlStep, checkRateLimit_fresh store 3600000 10 cid t1 h0]
  have hget1 : mapGet (rlStep 3600000 10 cid store t1) cid =
      some { count := 1, windowStart := t1, blocked := false, lastReset := t1 } := by
    rw [hstep1]
    exact mapGet_set_self _ _ _
  -- after the remaining 8 calls the count is 9
  have h9 := rlCalls_entry 3600000 10 cid t1 ts
    (rlStep 3600000 10 cid store t1)
    { count := 1, windowStart := t1, blocked := false, lastReset := t1 }
    hget1 rfl rfl (by norm_num) (by norm_num) hts
  rcases h9 with ⟨e9, he9, hc9, hws9, hlr9⟩
  rw [hlen] at hc9
  have hc9' : e9.count = 9 := by
    rw [hc9]
    norm_num
  have hrun : rlCalls 3600000 10 cid store (t1 :: ts) =
      rlCalls 3600000 10 cid (rlStep 3600000 10 cid store t1) ts := rfl
  rw [hrun]
  -- the 10th call increments 9 → 10 and is allowed with remaining 0
  have hstep10 := checkRateLimit_incr
    (rlCalls 3600000 10 cid (rlStep 3600000 10 cid store t1) ts)
    3600000 10 cid t10 e9 he9 (by omega) (by omega)
  have he10 : mapGet (checkRateLimit
      (rlCalls 3600000 10 cid (rlStep 3600000 10 cid store t1) ts)
      3600000 10 cid t10).2 cid = some { e9 with count := e9.count + 1 } := by
    rw [hstep10]
    exact mapGet_set_self _ _ _
  -- the 11th call within the window is blocked with positive retryAfter
  have hstep11 := checkRateLimit_blocked (checkRateLimit
      (rlCalls 3600000 10 cid (rlStep 3600000 10 cid store t1) ts)
      3600000 10 cid t10).2
    3600000 10 cid t11 { e9 with count := e9.count + 1 } he10
    (by simp only [hws9]; omega) (by simp only []; omega)
  have he11 : mapGet (checkRateLimit (checkRateLimit
      (rlCalls 3600000 10 cid (rlStep 3600000 10 cid store t1) ts)
      3600000 10 cid t10).2 3600000 10 cid t11).2 cid =
      some { { e9 with count := e9.count + 1 } with blocked := true } := by
    rw [hstep11]
    exact mapGet_set_self _ _ _
  -- the call at or after windowStart + windowMs resets the window
  have hstep12 := checkRateLimit_reset (checkRateLimit (checkRateLimit
      (rlCalls 3600000 10 cid (rlStep 3600000 10 cid store t1) ts)
      3600000 10 cid t10).2 3600000 10 cid t11).2
    3600000 10 cid tr { { e9 with count := e9.count + 1 } with blocked := true }
    he11 (by simp only [hws9]; omega)
  refine ⟨⟨?_, ?_⟩, ⟨?_, ?_⟩, ⟨?_, ?_⟩⟩
  · rw [hstep10]
  · rw [hstep10]
    simp only []
    omega
  · rw [hstep11]
  · rw [hstep11]
    simp only [hws9]
    exact jsCeilDiv1000_pos _ (by omega)
  · rw [hstep12]
  · rw [hstep12]
    norm_num

/-- C5 witness: ten requests at t=0..9 fill the window, the 11th at t=10 is
refused, and a request at t=3600000 gets a fresh window. -/
theorem c5_rate_limit_boundary_witness :
    (checkRateLimit (rlCalls 3600000 10 "k" [] (0 :: [1, 2, 3, 4, 5, 6, 7, 8]))
      3600000 10 "k" 9).1.remaining = 0 ∧
    (checkRateLimit (checkRateLimit (rlCalls 3600000 10 "k" []
      (0 :: [1, 2, 3, 4, 5, 6, 7, 8])) 3600000 10 "k" 9).2
      3600000 10 "k" 10).1.allowed = false ∧
    (checkRateLimit (checkRateLimit (checkRateLimit (rlCalls 3600000 10 "k" []
      (0 :: [1, 2, 3, 4, 5, 6, 7, 8])) 3600000 10 "k" 9).2
      3600000 10 "k" 10).2 3600000 10 "k" 3600000).1.remaining = 9 := by
  have h := c5_rate_limit_boundary [] "k" 0 [1, 2, 3, 4, 5, 6, 7, 8] 9 10 3600000
    rfl rfl (by decide) (by norm_num) (by norm_num) (by norm_num)
  exact ⟨h.1.2, h.2.1.1, h.2.2.2⟩

/-! ### The per-session quota invariant (C4) -/

theorem mapGet_some_mem {β : Type} (l : List (String × β)) (k : String)
    (v : β) (h : mapGet l k = some v) : (k, v) ∈ l := by
  induction l with
  | nil => cases h
  | cons p t ih =>
    rcases p with ⟨a, b⟩
    by_cases hak : a = k
    · subst hak
      simp only [mapGet, if_pos rfl] at h
      injection h with h
      subst h
      exact List.mem_cons_self _ _
    · simp only [mapGet, if_neg hak] at h
      exact List.mem_cons_of_mem _ (ih h)

theorem mapGet_del_self {β : Type} (l : List (String × β)) (k : String) :
    mapGet (mapDel l k) k = none := by
  induction l with
  | nil => rfl
  | cons p t ih =>
    rcases p with ⟨a, b⟩
    by_cases hak : a = k
    · simpa [mapDel, List.filter_cons, hak] using ih
    · simpa [mapDel, List.filter_cons, hak, mapGet] using ih

theorem mapGet_del_ne {β : Type} (l : List (String × β)) (k k' : String)
    (h : k' ≠ k) : mapGet (mapDel l k) k' = mapGet l k' := by
  induction l with
  | nil => rfl
  | cons p t ih =>
    rcases p with ⟨a, b⟩
    by_cases hak : a = k
    · subst hak
      have : ¬a = k' := fun he => h he.symm
      simpa [mapDel, List.filter_cons, mapGet, this] using ih
    · by_cases hak' : a = k'
      · subst hak'
        simp [mapDel, List.filter_cons, hak, mapGet]
      · simpa [mapDel, List.filter_cons, hak, mapGet, hak'] using ih

theorem mapKeys_filter_sublist {β : Type} (l : List (String × β))
    (q : String × β → Bool) :
    List.Sublist (mapKeys (l.filter q)) (mapKeys l) := by
  induction l with
  | nil => exact List.Sublist.refl _
  | cons p t ih =>
    rcases p with ⟨a, b⟩
    rcases hq : q (a, b) with _ | _
    · have hf : ((a, b) :: t).filter q = t.filter q := by
        simp [List.filter_cons, hq]
      rw [hf, mapKeys]
      exact List.Sublist.cons a ih
    · have hf : ((a, b) :: t).filter q = (a, b) :: t.filter q := by
        simp [List.filter_cons, hq]
      rw [hf, mapKeys, mapKeys]
      exact List.Sublist.cons₂ a ih

theorem idActive_antitone (storage : List (String × TokenEntry)) (t t' : Int)
    (h : t ≤ t') (id : String) (ha : idActive storage t' id = true) :
    idActive storage t id = true := by
  rcases hm : mapGet storage id with _ | e
  · rw [idActive, hm] at ha
    cases ha
  · rw [idActive, hm] at ha
    rw [idActive, hm]
    have ha' : isActive t' e = true := ha
    show isActive t e = true
    rw [isActive] at ha' ⊢
    simp only [Bool.and_eq_true, decide_eq_true_eq] at ha' ⊢
    omega

theorem activeTokenCount_antitone (m : TokenManager) (t t' : Int)
    (h : t ≤ t') (sid : String) :
    activeTokenCount m t' sid ≤ activeTokenCount m t sid :=
  countP_le_of_imp _ _ _
    (fun id _ ha => idActive_antitone m.tokenStorage t t' h id ha)

/-- Replacing one entry with a no-more-active entry only shrinks
`idActive`. -/
theorem idActive_set_le (storage : List (String × TokenEntry)) (k : String)
    (eOld eNew : TokenEntry) (t : Int) (hm : mapGet storage k = some eOld)
    (himp : isActive t eNew = true → isActive t eOld = true) (id : String)
    (h : idActive (mapSet storage k eNew) t id = true) :
    idActive storage t id = true := by
  by_cases hid : id = k
  · subst hid
    rw [idActive, mapGet_set_self] at h
    rw [idActive, hm]
    exact himp h
  · rw [idActive, mapGet_set_ne _ _ _ _ hid] at h
    rw [idActive]
    exact h

theorem idActive_filter_le (storage : List (String × TokenEntry))
    (q : String × TokenEntry → Bool) (t : Int) (id : String)
    (hnd : (mapKeys storage).Nodup)
    (h : idActive (storage.filter q) t id = true) :
    idActive storage t id = true := by
  rcases hm : mapGet storage id with _ | e
  · rw [idActive, mapGet_filter_none _ _ _ hm] at h
    cases h
  · rw [idActive, mapGet_filter storage q id e hnd hm] at h
    rw [idActive, hm]
    by_cases hq : q (id, e) = true
    · rw [if_pos hq] at h
      exact h
    · rw [if_neg hq] at h
      cases h

theorem zeroSessionTokens_keys (now : Int) (ids : List String) :
    ∀ storage : List (String × TokenEntry),
      mapKeys (zeroSessionTokens storage now ids) = mapKeys storage := by
  induction ids with
  | nil => intro storage; rfl
  | cons id rest ih =>
    intro storage
    rcases hm : mapGet storage id with _ | e
    · simp only [zeroSessionTokens, hm]
      exact ih storage
    · simp only [zeroSessionTokens, hm]
      exact (ih _).trans (mapKeys_set_of_mem _ _ _ (mapGet_mem_keys _ _ _ hm))

theorem zeroSessionTokens_pointwise (now t : Int) (ids : List String) :
    ∀ (storage : List (String × TokenEntry)) (id : String),
      idActive (zeroSessionTokens storage now ids) t id = true →
      idActive storage t id = true := by
  induction ids with
  | nil => intro storage id h; exact h
  | cons i rest ih =>
    intro storage id h
    rcases hm : mapGet storage i with _ | e
    · simp only [zeroSessionTokens, hm] at h
      exact ih storage id h
    · simp only [zeroSessionTokens, hm] at h
      have h1 := ih _ id h
      refine idActive_set_le storage i e _ t hm ?_ id h1
      intro hact
      rw [isActive] at hact
      simp only [Bool.and_eq_true, decide_eq_true_eq] at hact
      omega

theorem removeTokenFromSession_sublist (ss : List (String × List String))
    (sid tid : String) (s : String) :
    List.Sublist ((mapGet (removeTokenFromSession ss sid tid) s).getD [])
      ((mapGet ss s).getD []) := by
  rcases hm : mapGet ss sid with _ | l
  · simp only [removeTokenFromSession, hm]
    exact List.Sublist.refl _
  · by_cases he : l.erase tid = []
    · simp only [removeTokenFromSession, hm, if_pos he]
      by_cases hs : s = sid
      · subst hs
        rw [mapGet_del_self, hm]
        simp
      · rw [mapGet_del_ne _ _ _ hs]
    · simp only [removeTokenFromSession, hm, if_neg he]
      by_cases hs : s = sid
      · subst hs
        rw [mapGet_set_self, hm]
        simp only [Option.getD_some]
        exact List.erase_sublist _ _
      · rw [mapGet_set_ne _ _ _ _ hs]

theorem foldRemove_sublist (doomed : List (String × TokenEntry)) :
    ∀ (ss : List (String × List String)) (s : String),
      List.Sublist
        ((mapGet (doomed.foldl
          (fun ss p => removeTokenFromSession ss p.2.token.sessionId p.1) ss) s).getD [])
        ((mapGet ss s).getD []) := by
  induction doomed with
  | nil => intro ss s; exact List.Sublist.refl _
  | cons p rest ih =>
    intro ss s
    rw [List.foldl_cons]
    exact (ih _ s).trans (removeTokenFromSession_sublist ss _ _ s)

theorem validateAndUse_sessions (m : TokenManager) (tokenStr : String)
    (now : Int) :
    (validateAndUseToken m tokenStr now).2.sessionTokens = m.sessionTokens := by
  rcases hm : mapGet m.tokenStorage (generateTokenId tokenStr) with _ | e
  · simp only [validateAndUseToken, hm]
  · by_cases hexp : e.token.expiresAt < now
    · simp only [validateAndUseToken, hm, if_pos hexp]
    · by_cases hu : e.token.usesRemaining ≤ 0
      · simp only [validateAndUseToken, hm, if_neg hexp, if_pos hu]
      · simp only [validateAndUseToken, hm, if_neg hexp, if_neg hu]

theorem validateAndUse_keys (m : TokenManager) (tokenStr : String)
    (now : Int) :
    mapKeys (validateAndUseToken m tokenStr now).2.tokenStorage =
      mapKeys m.tokenStorage := by
  rcases hm : mapGet m.tokenStorage (generateTokenId tokenStr) with _ | e
  · simp only [validateAndUseToken, hm]
  · by_cases hexp : e.token.expiresAt < now
    · simp only [validateAndUseToken, hm, if_pos hexp]
    · by_cases hu : e.token.usesRemaining ≤ 0
      · simp only [validateAndUseToken, hm, if_neg hexp, if_pos hu]
      · simp only [validateAndUseToken, hm, if_neg hexp, if_neg hu]
        exact mapKeys_set_of_mem _ _ _ (mapGet_mem_keys _ _ _ hm)

theorem validateAndUse_pointwise (m : TokenManager) (tokenStr : String)
    (now t : Int) (id : String)
    (h : idActive (validateAndUseToken m tokenStr now).2.tokenStorage t id = true) :
    idActive m.tokenStorage t id = true := by
  rcases hm : mapGet m.tokenStorage (generateTokenId tokenStr) with _ | e
  · simp only [validateAndUseToken, hm] at h
    exact h
  · by_cases hexp : e.token.expiresAt < now
    · simp only [validateAndUseToken, hm, if_pos hexp] at h
      exact h
    · by_cases hu : e.token.usesRemaining ≤ 0
      · simp only [validateAndUseToken, hm, if_neg hexp, if_pos hu] at h
        exact h
      · simp only [validateAndUseToken, hm, if_neg hexp, if_neg hu] at h
        refine idActive_set_le m.tokenStorage (generateTokenId tokenStr) e _ t hm
          ?_ id h
        intro hact
        rw [isActive] at hact ⊢
        simp only [Bool.and_eq_true, decide_eq_true_eq] at hact ⊢
        omega

theorem idActive_set_ne (storage : List (String × TokenEntry)) (k : String)
    (e : TokenEntry) (t : Int) (id : String) (hid : id ≠ k) :
    idActive (mapSet storage k e) t id = idActive storage t id := by
  rw [idActive, idActive, mapGet_set_ne _ _ _ _ hid]

/-- The entry freshly stored by a successful `createToken`. -/
def freshEntry (now : Int) (tokenStr : String) (uses exp : Int)
    (sid clientId : String) : TokenEntry :=
  { token := { tokenStr := tokenStr, expiresAt := now + exp * 60 * 1000,
               usesRemaining := uses, sessionId := sid, createdAt := now,
               lastUsed := none },
    refreshCount := 0, issuedFor := clientId }

theorem createToken_ok_elim (m : TokenManager) (now : Int) (tokenStr : String)
    (uses exp : Int) (sid clientId : String) (tok : EphToken)
    (m2 : TokenManager)
    (h : createToken m now tokenStr uses exp sid clientId =
      Except.ok (tok, m2)) :
    (1 ≤ uses ∧ uses ≤ 5) ∧ (1 ≤ exp ∧ exp ≤ 30) ∧
    activeTokenCount m now sid < m.maxTokensPerSession ∧
    m2 = addTokenToSession
      (withStorage m (mapSet m.tokenStorage (generateTokenId tokenStr)
        (freshEntry now tokenStr uses exp sid clientId)))
      sid (generateTokenId tokenStr) := by
  rw [createToken] at h
  by_cases h1 : ¬(1 ≤ uses ∧ uses ≤ 5)
  · rw [if_pos h1] at h
    cases h
  · rw [if_neg h1] at h
    by_cases h2 : ¬(1 ≤ exp ∧ exp ≤ 30)
    · rw [if_pos h2] at h
      cases h
    · rw [if_neg h2] at h
      by_cases h3 : m.maxTokensPerSession ≤ activeTokenCount m now sid
      · rw [if_pos h3] at h
        cases h
      · rw [if_neg h3] at h
        simp only [Except.ok.injEq, Prod.mk.injEq] at h
        push_neg at h1 h2
        refine ⟨h1, h2, by omega, ?_⟩
        rw [← h.2]
        rfl

/-- Well-formedness the manager maintains: storage keys are duplicate-free
(JS `Map` keys are unique). -/
def managerWF (m : TokenManager) : Prop :=
  (mapKeys m.tokenStorage).Nodup

theorem createToken_ok_preserves (m : TokenManager) (now : Int)
    (tokenStr : String) (uses exp : Int) (sid clientId : String)
    (tok : EphToken) (m2 : TokenManager)
    (hWF : managerWF m)
    (hfr1 : mapGet m.tokenStorage (generateTokenId tokenStr) = none)
    (hfr2 : ∀ p ∈ m.sessionTokens, generateTokenId tokenStr ∉ p.2)
    (hbound : ∀ s, activeTokenCount m now s ≤ m.maxTokensPerSession)
    (h : createToken m now tokenStr uses exp sid clientId =
      Except.ok (tok, m2)) :
    managerWF m2 ∧ m2.maxTokensPerSession = m.maxTokensPerSession ∧
    ∀ s, activeTokenCount m2 now s ≤ m.maxTokensPerSession := by
  obtain ⟨h1, h2, h3, hm2⟩ :=
    createToken_ok_elim m now tokenStr uses exp sid clientId tok m2 h
  have htidk : generateTokenId tokenStr ∉ mapKeys m.tokenStorage :=
    (mapGet_eq_none_iff _ _).mp hfr1
  have hnotin : ∀ s, generateTokenId tokenStr ∉ sessionTokenIds m s := by
    intro s
    rw [sessionTokenIds]
    rcases hmc : mapGet m.sessionTokens s with _ | l
    · simp
    · simp only [Option.getD_some]
      exact hfr2 (s, l) (mapGet_some_mem _ _ _ hmc)
  have hst : m2.tokenStorage = mapSet m.tokenStorage (generateTokenId tokenStr)
      (freshEntry now tokenStr uses exp sid clientId) := by
    rw [hm2]
    rfl
  have hmax : m2.maxTokensPerSession = m.maxTokensPerSession := by
    rw [hm2]
    rfl
  have hss2 : m2.sessionTokens = mapSet m.sessionTokens sid
      (if generateTokenId tokenStr ∈ sessionTokenIds m sid
       then sessionTokenIds m sid
       else sessionTokenIds m sid ++ [generateTokenId tokenStr]) := by
    rw [hm2]
    rfl
  refine ⟨?_, hmax, ?_⟩
  · show (mapKeys m2.tokenStorage).Nodup
    rw [hst, mapKeys_set_of_fresh _ _ _ htidk, List.nodup_append]
    refine ⟨hWF, List.nodup_singleton _, ?_⟩
    intro x hx hx'
    rw [List.mem_singleton] at hx'
    subst hx'
    exact htidk hx
  · intro s
    by_cases hs : s = sid
    · subst hs
      have hids : sessionTokenIds m2 s =
          sessionTokenIds m s ++ [generateTokenId tokenStr] := by
        rw [sessionTokenIds, hss2, mapGet_set_self, if_neg (hnotin s)]
        rfl
      rw [activeTokenCount, hids, hst, List.countP_append]
      have hA : (sessionTokenIds m s).countP
          (idActive (mapSet m.tokenStorage (generateTokenId tokenStr)
            (freshEntry now tokenStr uses exp s clientId)) now) =
          (sessionTokenIds m s).countP (idActive m.tokenStorage now) := by
        refine countP_eq_of_eq_on _ _ _ ?_
        intro id hid
        exact idActive_set_ne _ _ _ _ _ (fun he => (hnotin s) (he ▸ hid))
      have hact : idActive (mapSet m.tokenStorage (generateTokenId tokenStr)
          (freshEntry now tokenStr uses exp s clientId)) now
          (generateTokenId tokenStr) = true := by
        rw [idActive, mapGet_set_self]
        show isActive now (freshEntry now tokenStr uses exp s clientId) = true
        rw [isActive, freshEntry]
        simp only [Bool.and_eq_true, decide_eq_true_eq]
        omega
      have hB : ([generateTokenId tokenStr]).countP
          (idActive (mapSet m.tokenStorage (generateTokenId tokenStr)
            (freshEntry now tokenStr uses exp s clientId)) now) = 1 := by
        simp [List.countP_cons, hact]
      rw [hA, hB]
      have hcnt := h3
      rw [activeTokenCount] at hcnt
      omega
    · have hids : sessionTokenIds m2 s = sessionTokenIds m s := by
        rw [sessionTokenIds, hss2, mapGet_set_ne _ _ _ _ hs]
        rfl
      rw [activeTokenCount, hids, hst]
      have hA : (sessionTokenIds m s).countP
          (idActive (mapSet m.tokenStorage (generateTokenId tokenStr)
            (freshEntry now tokenStr uses exp sid clientId)) now) =
          (sessionTokenIds m s).countP (idActive m.tokenStorage now) := by
        refine countP_eq_of_eq_on _ _ _ ?_
        intro id hid
        exact idActive_set_ne _ _ _ _ _ (fun he => (hnotin s) (he ▸ hid))
      rw [hA]
      exact hbound s

theorem activeTokenCount_le_of_pointwise (m m' : TokenManager) (t : Int)
    (hsess : ∀ s, List.Sublist (sessionTokenIds m' s) (sessionTokenIds m s))
    (hpt : ∀ id, idActive m'.tokenStorage t id = true →
      idActive m.tokenStorage t id = true) (s : String) :
    activeTokenCount m' t s ≤ activeTokenCount m t s := by
  rw [activeTokenCount, activeTokenCount]
  calc (sessionTokenIds m' s).countP (idActive m'.tokenStorage t)
      ≤ (sessionTokenIds m s).countP (idActive m'.tokenStorage t) :=
        countP_le_of_sublist _ (hsess s)
    _ ≤ (sessionTokenIds m s).countP (idActive m.tokenStorage t) :=
        countP_le_of_imp _ _ _ (fun id _ hh => hpt id hh)

/-- One lifecycle operation of the token manager, carrying the wall-clock
time at which it runs and its environment inputs (the token string the
Google SDK returns for creations). -/
inductive ManagerOp where
  | create (now : Int) (tokenStr : String) (uses expirationMinutes : Int)
      (sid clientId : String)
  | refresh (now : Int) (tokenStr : String) (uses expirationMinutes : Int)
      (sid clientId : String)
  | consume (now : Int) (tokenStr : String)
  | revoke (now : Int) (sid : String)
  | sweep (now : Int)
  | tick (now : Int)
deriving DecidableEq

def opAt : ManagerOp → Int
  | ManagerOp.create now _ _ _ _ _ => now
  | ManagerOp.refresh now _ _ _ _ _ => now
  | ManagerOp.consume now _ => now
  | ManagerOp.revoke now _ => now
  | ManagerOp.sweep now => now
  | ManagerOp.tick now => now

/-- The manager state after an operation (throwing operations leave the
state they reached when throwing). -/
def applyOp (m : TokenManager) : ManagerOp → TokenManager
  | ManagerOp.create now tokenStr uses exp sid clientId =>
    match createToken m now tokenStr uses exp sid clientId with
    | Except.ok (_, m') => m'
    | Except.error _ => m
  | ManagerOp.refresh now tokenStr uses exp sid clientId =>
    (refreshToken m now tokenStr uses exp sid clientId).2
  | ManagerOp.consume now tokenStr => (validateAndUseToken m tokenStr now).2
  | ManagerOp.revoke now sid => (revokeSession m sid now).2
  | ManagerOp.sweep now => (cleanup m now).1
  | ManagerOp.tick _ => m

/-- Freshness of the derived id of a newly issued token string: it is not a
storage key and not registered under any session (no 32-bit hash
collision). -/
def opFresh (m : TokenManager) : ManagerOp → Prop
  | ManagerOp.create _ tokenStr _ _ _ _ =>
    mapGet m.tokenStorage (generateTokenId tokenStr) = none ∧
    ∀ p ∈ m.sessionTokens, generateTokenId tokenStr ∉ p.2
  | ManagerOp.refresh _ tokenStr _ _ _ _ =>
    mapGet m.tokenStorage (generateTokenId tokenStr) = none ∧
    ∀ p ∈ m.sessionTokens, generateTokenId tokenStr ∉ p.2
  | _ => True

theorem consume_preserves (m : TokenManager) (tokenStr : String) (now : Int)
    (hWF : managerWF m)
    (hbound : ∀ s, activeTokenCount m now s ≤ m.maxTokensPerSession) :
    managerWF (validateAndUseToken m tokenStr now).2 ∧
    (validateAndUseToken m tokenStr now).2.maxTokensPerSession =
      m.maxTokensPerSession ∧
    ∀ s, activeTokenCount (validateAndUseToken m tokenStr now).2 now s ≤
      m.maxTokensPerSession := by
  have hmax : (validateAndUseToken m tokenStr now).2.maxTokensPerSession =
      m.maxTokensPerSession := by
    rcases hm : mapGet m.tokenStorage (generateTokenId tokenStr) with _ | e
    · simp only [validateAndUseToken, hm]
    · by_cases hexp : e.token.expiresAt < now
      · simp only [validateAndUseToken, hm, if_pos hexp]
      · by_cases hu : e.token.usesRemaining ≤ 0
        · simp only [validateAndUseToken, hm, if_neg hexp, if_pos hu]
        · simp only [validateAndUseToken, hm, if_neg hexp, if_neg hu]
  refine ⟨?_, hmax, ?_⟩
  · show (mapKeys (validateAndUseToken m tokenStr now).2.tokenStorage).Nodup
    rw [validateAndUse_keys]
    exact hWF
  · intro s
    refine le_trans (activeTokenCount_le_of_pointwise m _ now ?_ ?_ s) (hbound s)
    · intro s'
      rw [sessionTokenIds, sessionTokenIds, validateAndUse_sessions]
    · exact fun id hh => validateAndUse_pointwise m tokenStr now now id hh

theorem revoke_preserves (m : TokenManager) (sid : String) (now : Int)
    (hWF : managerWF m)
    (hbound : ∀ s, activeTokenCount m now s ≤ m.maxTokensPerSession) :
    managerWF (revokeSession m sid now).2 ∧
    (revokeSession m sid now).2.maxTokensPerSession = m.maxTokensPerSession ∧
    ∀ s, activeTokenCount (revokeSession m sid now).2 now s ≤
      m.maxTokensPerSession := by
  refine ⟨?_, rfl, ?_⟩
  · show (mapKeys (zeroSessionTokens m.tokenStorage now
      (sessionTokenIds m sid))).Nodup
    rw [zeroSessionTokens_keys]
    exact hWF
  · intro s
    refine le_trans (activeTokenCount_le_of_pointwise m _ now ?_ ?_ s) (hbound s)
    · intro s'
      exact List.Sublist.refl _
    · exact fun id hh => zeroSessionTokens_pointwise now now _ _ id hh

theorem sweep_preserves (m : TokenManager) (now : Int)
    (hWF : managerWF m)
    (hbound : ∀ s, activeTokenCount m now s ≤ m.maxTokensPerSession) :
    managerWF (cleanup m now).1 ∧
    (cleanup m now).1.maxTokensPerSession = m.maxTokensPerSession ∧
    ∀ s, activeTokenCount (cleanup m now).1 now s ≤ m.maxTokensPerSession := by
  refine ⟨?_, rfl, ?_⟩
  · show (mapKeys (m.tokenStorage.filter
      (fun p => !shouldCleanup now p.2))).Nodup
    exact hWF.sublist (mapKeys_filter_sublist _ _)
  · intro s
    refine le_trans (activeTokenCount_le_of_pointwise m _ now ?_ ?_ s) (hbound s)
    · intro s'
      exact foldRemove_sublist _ m.sessionTokens s'
    · exact fun id hh => idActive_filter_le _ _ now id hWF hh

theorem refresh_preserves (m : TokenManager) (now : Int) (tokenStr : String)
    (uses exp : Int) (sid clientId : String) (hWF : managerWF m)
    (hfr1 : mapGet m.tokenStorage (generateTokenId tokenStr) = none)
    (hfr2 : ∀ p ∈ m.sessionTokens, generateTokenId tokenStr ∉ p.2)
    (hbound : ∀ s, activeTokenCount m now s ≤ m.maxTokensPerSession) :
    managerWF (refreshToken m now tokenStr uses exp sid clientId).2 ∧
    (refreshToken m now tokenStr uses exp sid clientId).2.maxTokensPerSession =
      m.maxTokensPerSession ∧
    ∀ s, activeTokenCount (refreshToken m now tokenStr uses exp sid clientId).2
      now s ≤ m.maxTokensPerSession := by
  have hWF1 : managerWF (withStorage m
      (zeroSessionTokens m.tokenStorage now (sessionTokenIds m sid))) := by
    show (mapKeys (zeroSessionTokens m.tokenStorage now
      (sessionTokenIds m sid))).Nodup
    rw [zeroSessionTokens_keys]
    exact hWF
  have hbound1 : ∀ s, activeTokenCount (withStorage m
      (zeroSessionTokens m.tokenStorage now (sessionTokenIds m sid))) now s ≤
      m.maxTokensPerSession := by
    intro s
    refine le_trans (activeTokenCount_le_of_pointwise m _ now ?_ ?_ s) (hbound s)
    · intro s'
      exact List.Sublist.refl _
    · exact fun id hh => zeroSessionTokens_pointwise now now _ _ id hh
  have hfr1' : mapGet (withStorage m
      (zeroSessionTokens m.tokenStorage now
        (sessionTokenIds m sid))).tokenStorage
      (generateTokenId tokenStr) = none := by
    rw [mapGet_eq_none_iff]
    show generateTokenId tokenStr ∉
      mapKeys (zeroSessionTokens m.tokenStorage now (sessionTokenIds m sid))
    rw [zeroSessionTokens_keys]
    exact (mapGet_eq_none_iff _ _).mp hfr1
  rcases hc : createToken (withStorage m
      (zeroSessionTokens m.tokenStorage now (sessionTokenIds m sid)))
      now tokenStr uses exp sid clientId with e | pr
  · have hres : (refreshToken m now tokenStr uses exp sid clientId).2 =
        withStorage m
          (zeroSessionTokens m.tokenStorage now (sessionTokenIds m sid)) := by
      simp only [refreshToken, hc]
    rw [hres]
    exact ⟨hWF1, rfl, hbound1⟩
  · rcases pr with ⟨tok, m2⟩
    have hcp := createToken_ok_preserves _ now tokenStr uses exp sid clientId
      tok m2 hWF1 hfr1' hfr2 hbound1 hc
    rcases hm3 : mapGet m2.tokenStorage (generateTokenId tok.tokenStr)
      with _ | entry
    · have hres : (refreshToken m now tokenStr uses exp sid clientId).2 = m2 := by
        simp only [refreshToken, hc, hm3]
      rw [hres]
      exact hcp
    · have hres : (refreshToken m now tokenStr uses exp sid clientId).2 =
          withStorage m2 (mapSet m2.tokenStorage (generateTokenId tok.tokenStr)
            { entry with refreshCount := 1 }) := by
        simp only [refreshToken, hc, hm3]
      rw [hres]
      obtain ⟨hWF2, hmax2, hbound2⟩ := hcp
      refine ⟨?_, hmax2, ?_⟩
      · show (mapKeys (mapSet m2.tokenStorage (generateTokenId tok.tokenStr)
          { entry with refreshCount := 1 })).Nodup
        rw [mapKeys_set_of_mem _ _ _ (mapGet_mem_keys _ _ _ hm3)]
        exact hWF2
      · intro s
        refine le_trans
          (activeTokenCount_le_of_pointwise m2 _ now ?_ ?_ s) (hbound2 s)
        · intro s'
          exact List.Sublist.refl _
        · intro id hh
          exact idActive_set_le m2.tokenStorage (generateTokenId tok.tokenStr)
            entry { entry with refreshCount := 1 } now hm3 (fun ha => ha) id hh

/-- C4 (amended): provided every newly issued token string derives a fresh
id (its 32-bit-hash id is neither an existing storage key nor registered
under any session — i.e. no hash collision), the number of simultaneously
valid credentials of any session never exceeds `maxTokensPerSession`:
`createToken` throws a quota error instead of issuing when the session
already holds that many valid credentials, and `refreshToken`,
`validateAndUseToken`, `revokeSession`, `cleanup` and time passing preserve
the bound. -/
theorem c4_quota_invariant :
    (∀ (m : TokenManager) (t : Int) (op : ManagerOp),
      managerWF m → opFresh m op → t ≤ opAt op →
      (∀ sid, activeTokenCount m t sid ≤ m.maxTokensPerSession) →
      managerWF (applyOp m op) ∧
      (applyOp m op).maxTokensPerSession = m.maxTokensPerSession ∧
      ∀ sid, activeTokenCount (applyOp m op) (opAt op) sid ≤
        m.maxTokensPerSession) ∧
    (∀ (m : TokenManager) (now : Int) (tokenStr : String) (uses exp : Int)
       (sid clientId : String),
      1 ≤ uses → uses ≤ 5 → 1 ≤ exp → exp ≤ 30 →
      m.maxTokensPerSession ≤ activeTokenCount m now sid →
      createToken m now tokenStr uses exp sid clientId =
        Except.error ("Session has reached maximum token limit (" ++
          toString m.maxTokensPerSession ++ ")")) := by
  constructor
  · intro m t op hWF hfresh htle hbound
    have hbound' : ∀ s, activeTokenCount m (opAt op) s ≤ m.maxTokensPerSession :=
      fun s => le_trans (activeTokenCount_antitone m t (opAt op) htle s)
        (hbound s)
    rcases op with ⟨now, tokenStr, uses, exp, sid, clientId⟩ |
      ⟨now, tokenStr, uses, exp, sid, clientId⟩ | ⟨now, tokenStr⟩ |
      ⟨now, sid⟩ | now | now
    · obtain ⟨hfr1, hfr2⟩ := hfresh
      rcases hc : createToken m now tokenStr uses exp sid clientId
        with e | pr
      · have hres : applyOp m
            (ManagerOp.create now tokenStr uses exp sid clientId) = m := by
          simp only [applyOp, hc]
        rw [hres]
        exact ⟨hWF, rfl, hbound'⟩
      · rcases pr with ⟨tok, m2⟩
        have hres : applyOp m
            (ManagerOp.create now tokenStr uses exp sid clientId) = m2 := by
          simp only [applyOp, hc]
        rw [hres]
        exact createToken_ok_preserves m now tokenStr uses exp sid clientId
          tok m2 hWF hfr1 hfr2 hbound' hc
    · obtain ⟨hfr1, hfr2⟩ := hfresh
      exact refresh_preserves m now tokenStr uses exp sid clientId hWF hfr1
        hfr2 hbound'
    · exact consume_preserves m tokenStr now hWF hbound'
    · exact revoke_preserves m sid now hWF hbound'
    · exact sweep_preserves m now hWF hbound'
    · exact ⟨hWF, rfl, hbound'⟩
  · intro m now tokenStr uses exp sid clientId h1 h2 h3 h4 h5
    rw [createToken, if_neg (not_not_intro ⟨h1, h2⟩),
      if_neg (not_not_intro ⟨h3, h4⟩), if_pos h5]

/-- An empty manager with the default configuration. -/
def c4Mgr0 : TokenManager :=
  { tokenStorage := [], sessionTokens := [], maxTokensPerSession := 3,
    defaultExpirationMinutes := 30, defaultUses := 1 }

/-- An operation run that fails (`none`) if any creation throws. -/
def applyOpChecked (m : TokenManager) (op : ManagerOp) : Option TokenManager :=
  match op with
  | ManagerOp.create now tokenStr uses exp sid clientId =>
    match createToken m now tokenStr uses exp sid clientId with
    | Except.ok (_, m') => some m'
    | Except.error _ => none
  | _ => some (applyOp m op)

def applyOpsChecked : TokenManager → List ManagerOp → Option TokenManager
  | m, [] => some m
  | m, op :: ops =>
    match applyOpChecked m op with
    | some m' => applyOpsChecked m' ops
    | none => none

/-- The collision trace: session A issues and exhausts token `Aa`, then
fills its quota with three live tokens; session B then issues token `BB`,
whose 32-bit hash id collides with `Aa`'s and overwrites A's exhausted
entry with a live one. -/
def c4Ops : List ManagerOp :=
  [ManagerOp.create 0 "Aa" 1 30 "A" "cl",
   ManagerOp.consume 1 "Aa",
   ManagerOp.create 2 "a" 1 30 "A" "cl",
   ManagerOp.create 3 "b" 1 30 "A" "cl",
   ManagerOp.create 4 "c" 1 30 "A" "cl",
   ManagerOp.create 5 "BB" 1 30 "B" "cl"]

/-- C4 counterexample: after the collision trace (in which no `createToken`
call threw a quota error) session A holds 4 simultaneously valid
credentials while `maxTokensPerSession = 3` — the id hash is not injective
(`Aa` and `BB` collide), so the claimed invariant fails as stated. -/
theorem c4_counterexample :
    (applyOpsChecked c4Mgr0 c4Ops).map
      (fun mf => (activeTokenCount mf 6 "A", mf.maxTokensPerSession)) =
      some (4, 3) ∧
    generateTokenId "Aa" = generateTokenId "BB" := by decide

/-- A session already holding three live credentials. -/
def c4FullMgr : TokenManager :=
  { tokenStorage :=
      [(generateTokenId "a",
        { token := { tokenStr := "a", expiresAt := 1800000,
                     usesRemaining := 1, sessionId := "A", createdAt := 0,
                     lastUsed := none },
          refreshCount := 0, issuedFor := "cl" }),
       (generateTokenId "b",
        { token := { tokenStr := "b", expiresAt := 1800000,
                     usesRemaining := 1, sessionId := "A", createdAt := 0,
                     lastUsed := none },
          refreshCount := 0, issuedFor := "cl" }),
       (generateTokenId "c",
        { token := { tokenStr := "c", expiresAt := 1800000,
                     usesRemaining := 1, sessionId := "A", createdAt := 0,
                     lastUsed := none },
          refreshCount := 0, issuedFor := "cl" })],
    sessionTokens :=
      [("A", [generateTokenId "a", generateTokenId "b", generateTokenId "c"])],
    maxTokensPerSession := 3, defaultExpirationMinutes := 30,
    defaultUses := 1 }

/-- C4 witness: creating into an empty manager keeps the bound, and a 4th
creation for a session already holding 3 live credentials throws the quota
error. -/
theorem c4_quota_invariant_witness :
    (managerWF (applyOp c4Mgr0 (ManagerOp.create 0 "tk" 1 30 "s" "cl")) ∧
     ∀ sid, activeTokenCount
       (applyOp c4Mgr0 (ManagerOp.create 0 "tk" 1 30 "s" "cl")) 0 sid ≤ 3) ∧
    createToken c4FullMgr 6 "fresh" 1 30 "A" "cl" =
      Except.error "Session has reached maximum token limit (3)" := by
  constructor
  · have hbound0 : ∀ sid, activeTokenCount c4Mgr0 0 sid ≤
        c4Mgr0.maxTokensPerSession := by
      intro sid
      rw [activeTokenCount, sessionTokenIds]
      simp [c4Mgr0, mapGet]
    have h := (c4_quota_invariant.1 c4Mgr0 0
      (ManagerOp.create 0 "tk" 1 30 "s" "cl") List.nodup_nil
      ⟨rfl, by decide⟩ (le_refl 0) hbound0)
    exact ⟨h.1, h.2.2⟩
  · exact c4_quota_invariant.2 c4FullMgr 6 "fresh" 1 30 "A" "cl"
      (by norm_num) (by norm_num) (by norm_num) (by norm_num) (by decide)
